import Mathlib

/-!
Verification of the Splunk-demo Session Coordinator (the `queue-manager`
service) against its specification.

The embedding below follows the modular layout of the repository, which is the
variant wired up by the server entry point (`server.js` registering
`routes/session.js`, `services/state.js`, `services/queue.js`,
`services/session.js`, `services/invite.js`, `handlers/websocket.js`).

Modelling conventions:
- Opaque string identifiers (uuid client ids, session ids) and bearer tokens
  are modelled as `Nat`; freshness of minted tokens and session ids (uuid /
  timestamp uniqueness, §4.5 of the spec) is modelled with counters in the
  coordinator state.
- Timestamps (`Date.now()`-style millisecond values) are `Int`.
- JavaScript distinguishes `undefined` (an absent message field) from `null`
  (the initial value of `client.inviteToken` and the stored
  `activeSession.inviteToken`); the strict equality `===` used by the
  reconnect check does not identify them.  The type `JVal` models a JS value
  that is a string or nullish, and `jeq` models `===` on such values.
- The external key-value store is not coordinator state: reads that the code
  awaits (the invite record and its TTL) arrive as event parameters, and
  writes are returned as data (`StoreWrite`).
- Each WebSocket/HTTP handler runs atomically between `await` points (Node's
  event loop).  `joinQueue` has one interior suspension point, the awaited
  invite-store read; it is therefore split into `joinPhase1` (code before the
  `await`) and `joinPhase2` (the continuation), and the atomic `joinQueue`
  is their composition.  Interleaved executions compose the phases directly.
- Timers are modelled by events: the disconnect-grace timer callback fires as
  a `graceFire` event enabled while the timer is armed, and the asynchronous
  `error` event of a failed `spawn` fires as a `spawnErrorFire` event enabled
  while such an error is pending.  Frames sent to clients, the session-end
  metrics emission and the credential-file cleanup calls are recorded in the
  output list `Out` of each step.
-/

namespace QM

/-- A JavaScript value that is a string or nullish, as flows through the
`inviteToken` fields of `server.js`: an absent JSON field is `undefined`,
`client.inviteToken` is initialised to `null`, and
`activeSession.inviteToken` is stored as `client.inviteToken || null`. -/
inductive JVal where
  | undef
  | null
  | str (s : String)
deriving DecidableEq, Repr

/-- JS truthiness for a string-or-nullish value (the empty string is falsy). -/
def JVal.truthy : JVal → Bool
  | .str s => !(s == "")
  | _ => false

/-- The JS expression `v || null`. -/
def JVal.orNull (v : JVal) : JVal := if v.truthy then v else .null

/-- The string payload of a `JVal`, for branches guarded by truthiness. -/
def JVal.strVal : JVal → String
  | .str s => s
  | _ => ""

/-- JS strict equality `===` on string-or-nullish values.  Note
`jeq .null .undef = false`: this is the comparison
`activeSession.inviteToken === inviteToken` of the reconnect check. -/
def jeq : JVal → JVal → Bool
  | .undef, .undef => true
  | .null, .null => true
  | .str a, .str b => a == b
  | _, _ => false

/-- Per-connection state (`connected → queued → active`, `services/state.js`
comment; a closed connection is deleted from the client map). -/
inductive CState where
  | connected
  | queued
  | active
deriving DecidableEq, Repr

/-- A client-connection record, as stored in the `clients` map of
`services/state.js` (`ws -> { id, state, joinedAt, ip, userAgent,
inviteToken }` plus the dynamically added `pendingSessionToken` and
`sessionToken` fields).  `userAgent` is retained only for audit records and
is omitted.  The map key `ws` is identified with the client id, which is
minted fresh per connection (`uuidv4`). -/
structure Client where
  id : Nat
  cstate : CState
  joinedAt : Option Int
  ip : Nat
  inviteToken : JVal
  pendingSessionToken : Option Nat
  sessionToken : Option Nat
deriving DecidableEq, Repr

/-- The active-session record built in `services/session.js` `startSession`.
The `ttydProcess` handle, `userAgent`, accumulated `errors` and the
`envFileCleanup`/`hardTimeout` handles are not data the claims depend on;
cleanup calls are visible as `Out.credFileReleased` outputs. -/
structure Session where
  clientId : Nat
  sessionId : Nat
  sessionToken : Option Nat
  startedAt : Int
  expiresAt : Int
  inviteToken : JVal
  ip : Nat
  queueWaitMs : Int
  awaitingReconnect : Bool
  disconnectedAt : Option Int
deriving DecidableEq, Repr

/-- An entry of the `pendingSessionTokens` map
(`sessionToken -> { clientId, inviteToken, ip, createdAt }`). -/
structure PendingEntry where
  clientId : Nat
  inviteToken : JVal
  ip : Nat
  createdAt : Int
deriving DecidableEq, Repr

/-- An invite record as read from the key-value store
(`invite:<token>` JSON).  The append-only `sessions` audit list is not
inspected by `validateInvite` and is omitted. -/
structure Invite where
  expiresAt : Int
  maxUses : Int
  useCount : Int
  status : String
deriving DecidableEq, Repr

/-- Result of `validateInvite` (`services/invite.js`). -/
structure VResult where
  valid : Bool
  reason : Option String := none
  rejoin : Bool := false
  data : Option Invite := none
deriving DecidableEq, Repr

/-- A write-back to the key-value store produced by `validateInvite` when it
marks a record expired (`redis.set(inviteKey, ..., 'EX', ttl)`). -/
structure StoreWrite where
  record : Invite
  ttlSeconds : Int
deriving DecidableEq, Repr

/-- One character of the invite-token alphabet `[A-Za-z0-9_-]`. -/
def isTokenChar (c : Char) : Bool :=
  c.isAlpha || c.isDigit || c = '_' || c = '-'

/-- The regex test `/^[A-Za-z0-9_-]{4,64}$/` of `services/invite.js`
(together with the preceding `!token` falsiness check, which the empty
string also fails). -/
def tokenSyntaxOk (t : String) : Bool :=
  decide (4 ≤ t.length) && decide (t.length ≤ 64) && t.toList.all isTokenChar

def reasonInvalid : String := "invalid"
def reasonNotFound : String := "not_found"
def reasonRevoked : String := "revoked"
def reasonUsed : String := "used"
def reasonExpired : String := "expired"
def reasonMissing : String := "missing"
def statusRevoked : String := "revoked"
def statusUsed : String := "used"
def statusExpired : String := "expired"

/-- `validateInvite(redis, token, clientIp)` from `services/invite.js`,
as a pure function.  The store read that the code awaits is the parameter
`recd` (the parsed JSON at `invite:<token>`, or `none`), and the awaited
`redis.ttl` is `curTtl`.  The rejoin checks read the live coordinator state
(`state.getActiveSession()`, `state.pendingSessionTokens`), passed here as
`active` and `pendings`.  The returned `Option StoreWrite` is the expired
write-back. -/
def validateInvite (active : Option Session) (pendings : List (Nat × PendingEntry))
    (token : String) (clientIp : Option Nat) (recd : Option Invite) (curTtl : Int)
    (now : Int) : VResult × Option StoreWrite :=
  if !tokenSyntaxOk token then
    ({ valid := false, reason := some reasonInvalid }, none)
  else
    match recd with
    | none => ({ valid := false, reason := some reasonNotFound }, none)
    | some invite =>
      if invite.status = statusRevoked then
        ({ valid := false, reason := some reasonRevoked }, none)
      else if invite.status = statusUsed || decide (invite.useCount ≥ invite.maxUses) then
        -- rejoin eligibility: active session, then pending tokens, from the same IP
        if (match clientIp, active with
            | some ip, some sess => jeq sess.inviteToken (.str token) && decide (sess.ip = ip)
            | _, _ => false) then
          ({ valid := true, rejoin := true, data := some invite }, none)
        else if pendings.any
            (fun p => jeq p.2.inviteToken (.str token) && decide (clientIp = some p.2.ip)) then
          ({ valid := true, rejoin := true, data := some invite }, none)
        else
          ({ valid := false, reason := some reasonUsed }, none)
      else if decide (invite.expiresAt < now) then
        ({ valid := false, reason := some reasonExpired },
         some { record := { invite with status := statusExpired },
                ttlSeconds := if curTtl > 0 then curTtl else 86400 })
      else
        ({ valid := true, data := some invite }, none)

/-- Queue bound (`config/index.js` default `MAX_QUEUE_SIZE`). -/
def MAX_QUEUE_SIZE : Nat := 10

/-- Soft session timeout in minutes (`config` default). -/
def SESSION_TIMEOUT_MINUTES : Int := 60

/-- Estimated-wait multiplier (`config`, fixed at 45). -/
def AVERAGE_SESSION_MINUTES : Int := 45

/-- The shared coordinator state of `services/state.js`: the client map, the
FIFO queue of client ids, the single active-session slot, the two token maps,
the reconnection lock and the disconnect-grace timer (modelled as an armed
flag).  `spawnErrorPending` records that a spawned `ttyd` process has emitted
an asynchronous `error` event whose handler has not yet run; `nextToken` and
`nextSessionId` are the freshness counters for minted tokens and session
ids. -/
structure CoordState where
  clients : List Client
  queue : List Nat
  activeSession : Option Session
  sessionTokens : List (Nat × Nat)
  pendingSessionTokens : List (Nat × PendingEntry)
  reconnectionInProgress : Bool
  graceTimerArmed : Bool
  spawnErrorPending : Option Nat
  nextToken : Nat
  nextSessionId : Nat
deriving DecidableEq, Repr

/-- Lookup in a JS `Map` keyed by token. -/
def lookupTok {α : Type} (m : List (Nat × α)) (k : Nat) : Option α :=
  (m.find? (fun p => p.1 = k)).map (fun p => p.2)

/-- `Map.delete` keyed by token. -/
def eraseTok {α : Type} (m : List (Nat × α)) (k : Nat) : List (Nat × α) :=
  m.filter (fun p => !(p.1 = k))

/-- `Map.set` keyed by token (replaces any existing binding). -/
def insertTok {α : Type} (m : List (Nat × α)) (k : Nat) (v : α) : List (Nat × α) :=
  eraseTok m k ++ [(k, v)]

/-- `state.clients.get(ws)` / `findClientWs(clientId)`: the connection record
with the given id, if the connection is open. -/
def findClient (s : CoordState) (cid : Nat) : Option Client :=
  s.clients.find? (fun c => c.id = cid)

/-- In-place mutation of the client object with id `cid` (JS objects are
mutated through the `clients` map). -/
def setClient (s : CoordState) (cid : Nat) (f : Client → Client) : CoordState :=
  { s with clients := s.clients.map (fun c => if c.id = cid then f c else c) }

/-- JS `Array.prototype.indexOf` (−1 when absent). -/
def jsIndexOf (q : List Nat) (c : Nat) : Int :=
  match q with
  | [] => -1
  | x :: xs =>
    if x = c then 0
    else
      let r := jsIndexOf xs c
      if r = -1 then -1 else r + 1

def msgReconnectInProgress : String := "Reconnection already in progress"
def msgAlreadyInQueue : String := "Already in queue"
def msgQueueIsFull : String := "Queue is full. Please try again later."
def msgFailedStartSession : String := "Failed to start demo session"
def msgFailedStartTerminal : String := "Failed to start terminal"
def reasonDisconnected : String := "disconnected"

/-- Observable effects of one coordinator step: the protocol frames sent to
clients (tagged with the recipient's client id), the `sessions_ended` metric
emission of `endSession` (which carries the end reason even when the holder's
socket is gone), and the credential-file cleanup calls. -/
inductive Out where
  | statusMsg (cid : Nat) (queueSize : Nat) (sessionActive : Bool)
  | errorMsg (cid : Nat) (msg : String)
  | inviteInvalid (cid : Nat) (reason : Option String)
  | queueFull (cid : Nat)
  | sessionTokenMsg (cid : Nat) (tok : Option Nat)
  | queuePosition (cid : Nat) (position : Int) (estimatedWaitMinutes : Int) (queueSize : Nat)
  | sessionStarting (cid : Nat) (tok : Option Nat) (expiresAt : Int) (reconnected : Bool)
  | leftQueue (cid : Nat)
  | sessionEnded (cid : Nat) (reason : String)
  | endedMetric (reason : String)
  | credFileReleased
deriving DecidableEq, Repr

/-- Outcome of the `spawn('ttyd', ...)` call for one session start: success,
a synchronous throw (caught by the `catch` block of `startSession`), or an
asynchronous `error` event (delivered later; the session-start code path
continues normally first). -/
inductive SpawnRes where
  | ok
  | errSync
  | errAsync
deriving DecidableEq, Repr

/-- The `queue_position` frame for `cid` computed by `sendQueuePosition`. -/
def queuePositionOut (s : CoordState) (cid : Nat) : Out :=
  let position := jsIndexOf s.queue cid + 1
  .queuePosition cid position (position * AVERAGE_SESSION_MINUTES) s.queue.length

/-- `broadcastQueueUpdate()`: a `queue_position` frame to every client whose
state is `queued`. -/
def broadcastQueueUpdate (s : CoordState) : List Out :=
  s.clients.filterMap (fun c =>
    if c.cstate = .queued then some (queuePositionOut s c.id) else none)

/-- The body of `startSession(redis, ws, client, processQueue)` from
`services/session.js`, up to its first `await` (the best-effort Redis
persistence write, which follows all state mutations and frames modelled
here) and without the `catch` block's final `processQueue()` call: the
returned flag is true exactly when the spawn threw synchronously, in which
case the caller resumes with the queue advance, as the `catch` block does.
`c` is the captured client object and `sp` the spawn outcome. -/
def startSessionCore (s : CoordState) (c : Client) (sp : SpawnRes) (now : Int) :
    CoordState × List Out × Bool :=
  -- remove from queue
  let s := { s with queue := s.queue.erase c.id }
  let s := setClient s c.id (fun cl => { cl with cstate := .active })
  -- createSessionEnvFile: the scoped credential file is created here and its
  -- cleanup handle registered; cleanup calls appear as Out.credFileReleased
  match sp with
  | .errSync =>
    -- the catch block: error frame, revert the client, release the
    -- credential file (the queue advance is resumed by the caller)
    let s := setClient s c.id (fun cl => { cl with cstate := .connected })
    (s, [Out.errorMsg c.id msgFailedStartSession, Out.credFileReleased], true)
  | _ =>
    let sid := s.nextSessionId
    let s := { s with nextSessionId := s.nextSessionId + 1 }
    let startedAt := now
    let expiresAt := now + SESSION_TIMEOUT_MINUTES * 60 * 1000
    let queueWaitMs := match c.joinedAt with
      | some j => startedAt - j
      | none => 0
    -- promote the pending session token to an active session token
    let sessionToken := c.pendingSessionToken
    let s := match sessionToken with
      | some tok =>
        { s with pendingSessionTokens := eraseTok s.pendingSessionTokens tok,
                 sessionTokens := insertTok s.sessionTokens tok sid }
      | none => s
    let sess : Session :=
      { clientId := c.id, sessionId := sid, sessionToken := sessionToken,
        startedAt := startedAt, expiresAt := expiresAt,
        inviteToken := c.inviteToken.orNull, ip := c.ip,
        queueWaitMs := queueWaitMs, awaitingReconnect := false,
        disconnectedAt := none }
    let s := { s with activeSession := some sess,
                      spawnErrorPending :=
                        if sp = .errAsync then some c.id else s.spawnErrorPending }
    (s, [Out.sessionStarting c.id sessionToken expiresAt false], false)

/-- `processQueue(redis)` from `services/queue.js`: when the slot is free,
promote the queue head if its connection is live (a synchronous spawn
failure continues with the next client, via the `catch` block's
`processQueue()`), otherwise discard the head and try the next.  `sps`
supplies the spawn outcome for each start attempted; `fuel` bounds the
recursion (any value `≥` the queue length is exact). -/
def processQueueAux (fuel : Nat) (s : CoordState) (sps : List SpawnRes)
    (now : Int) : CoordState × List Out :=
  match fuel with
  | 0 => (s, [])
  | fuel + 1 =>
    if s.activeSession.isSome then (s, [])
    else
      match s.queue with
      | [] => (s, [])
      | nextClientId :: restQueue =>
        match findClient s nextClientId with
        | some c =>
          let r := startSessionCore s c (sps.headD .ok) now
          if r.2.2 then
            let r2 := processQueueAux fuel r.1 sps.tail now
            (r2.1, r.2.1 ++ r2.2)
          else (r.1, r.2.1)
        | none =>
          -- client disconnected: remove and try next
          processQueueAux fuel { s with queue := restQueue } sps now

/-- `startSession` as called from `joinQueue`: the session-start body
followed, on a synchronous spawn failure, by the `catch` block's
`processQueue()`. -/
def startSession (fuel : Nat) (s : CoordState) (c : Client) (sps : List SpawnRes)
    (now : Int) : CoordState × List Out :=
  let r := startSessionCore s c (sps.headD .ok) now
  if r.2.2 then
    let r2 := processQueueAux fuel r.1 sps.tail now
    (r2.1, r.2.1 ++ r2.2)
  else (r.1, r.2.1)

/-- `processQueue` entered with exact fuel. -/
def processQueue (s : CoordState) (sps : List SpawnRes) (now : Int) :
    CoordState × List Out :=
  processQueueAux s.queue.length s sps now

/-- `endSession(redis, reason, processQueue)` from `services/session.js`:
metrics, kill the subprocess, release the credential file, drop the session
token, notify the holder if still connected, clear the slot, advance the
queue.  The invite-usage audit and Redis deletes are external-store effects. -/
def endSession (s : CoordState) (reason : String) (sps : List SpawnRes)
    (now : Int) : CoordState × List Out :=
  match s.activeSession with
  | none => (s, [])
  | some sess =>
    let outs1 := [Out.endedMetric reason, Out.credFileReleased]
    let s := match sess.sessionToken with
      | some tok => { s with sessionTokens := eraseTok s.sessionTokens tok }
      | none => s
    let r2 : CoordState × List Out :=
      match findClient s sess.clientId with
      | some _ =>
        (setClient s sess.clientId
           (fun cl => { cl with cstate := .connected, sessionToken := none }),
         [Out.sessionEnded sess.clientId reason])
      | none => (s, [])
    let s := { r2.1 with activeSession := none }
    let r3 := processQueue s sps now
    (r3.1, outs1 ++ r2.2 ++ r3.2)

/-- `handleDisconnect(redis, ws)` from `handlers/websocket.js`. -/
def handleDisconnect (s : CoordState) (cid : Nat) (now : Int) :
    CoordState × List Out :=
  match findClient s cid with
  | none => (s, [])
  | some c =>
    let isHolder : Bool := match s.activeSession with
      | some sess => sess.clientId = cid
      | none => false
    -- clean up the pending session token unless held by the active client
    let s := match c.pendingSessionToken with
      | some tok =>
        if isHolder then s
        else { s with pendingSessionTokens := eraseTok s.pendingSessionTokens tok }
      | none => s
    -- remove from the queue if waiting
    let r1 : CoordState × List Out :=
      if cid ∈ s.queue then
        let s := { s with queue := s.queue.erase cid }
        (s, broadcastQueueUpdate s)
      else (s, [])
    let s := r1.1
    -- start the grace window if the active holder dropped
    let s :=
      if isHolder then
        { s with
          activeSession := s.activeSession.map (fun sess =>
            { sess with awaitingReconnect := true, disconnectedAt := some now }),
          graceTimerArmed := true }
      else s
    let s := { s with clients := s.clients.filter (fun cl => !(cl.id = cid)) }
    (s, r1.2)

/-- The disconnect-grace timer callback (`handlers/websocket.js`): ends the
session with reason `disconnected` if it is still awaiting a reconnect. -/
def graceFireStep (s : CoordState) (sps : List SpawnRes) (now : Int) :
    CoordState × List Out :=
  if s.graceTimerArmed then
    let r : CoordState × List Out :=
      match s.activeSession with
      | some sess =>
        if sess.awaitingReconnect then endSession s reasonDisconnected sps now
        else (s, [])
      | none => (s, [])
    ({ r.1 with graceTimerArmed := false }, r.2)
  else (s, [])

/-- The `ttydProcess.on('error', ...)` handler of `services/session.js`: an
error frame to the requesting client, revert it to `connected`, release the
credential file, and call `processQueue`. -/
def spawnErrorFireStep (s : CoordState) (sps : List SpawnRes) (now : Int) :
    CoordState × List Out :=
  match s.spawnErrorPending with
  | none => (s, [])
  | some cid =>
    let s := { s with spawnErrorPending := none }
    let s := setClient s cid (fun cl => { cl with cstate := .connected })
    let r := processQueue s sps now
    (r.1, [Out.errorMsg cid msgFailedStartTerminal, Out.credFileReleased] ++ r.2)

/-- Result of the part of `joinQueue` (`services/queue.js`) that runs before
its suspension point: either the handler returned (possibly after the
reconnect path, which contains no `await`), or it reached
`await validateInvite(...)` with a truthy token, or the token was falsy and
the rest of the handler runs synchronously. -/
inductive JoinPhase1Result where
  | early (s : CoordState) (outs : List Out)
  | suspendedValidate (tokenStr : String)
  | continueNoInvite
deriving DecidableEq, Repr

/-- `joinQueue` up to the awaited invite-store read: the reconnection-lock
check, the reconnect path (executed under the lock, which is released by its
`finally` before the handler returns), and the already-in-queue check. -/
def joinPhase1 (s : CoordState) (c : Client) (tok : JVal) : JoinPhase1Result :=
  if s.reconnectionInProgress then
    .early s [Out.errorMsg c.id msgReconnectInProgress]
  else
    let rest : JoinPhase1Result :=
      if c.id ∈ s.queue then .early s [Out.errorMsg c.id msgAlreadyInQueue]
      else if tok.truthy then .suspendedValidate tok.strVal
      else .continueNoInvite
    match s.activeSession with
    | some sess =>
      if sess.awaitingReconnect && jeq sess.inviteToken tok && decide (sess.ip = c.ip) then
        -- reconnect to the session during the grace period
        let s := { s with
          graceTimerArmed := false,
          activeSession := some { sess with clientId := c.id,
                                            awaitingReconnect := false,
                                            disconnectedAt := none } }
        let s := setClient s c.id (fun cl =>
          { cl with inviteToken := tok, cstate := .active,
                    pendingSessionToken := sess.sessionToken })
        .early s [Out.sessionTokenMsg c.id sess.sessionToken,
                  Out.sessionStarting c.id sess.sessionToken sess.expiresAt true]
      else rest
    | none => rest

/-- The tail of `joinQueue` after invite validation (or with no invite):
queue-bound check, pending-token mint, queue insertion, immediate start or
position frame, and the broadcast.  `c` is the captured client object,
threaded as a value alongside its map entry exactly as the mutated JS object
is. -/
def joinRest (s : CoordState) (c : Client) (tok : JVal) (sps : List SpawnRes)
    (now : Int) : CoordState × List Out :=
  if s.queue.length ≥ MAX_QUEUE_SIZE then (s, [Out.queueFull c.id])
  else
    let ptok := s.nextToken
    let s := { s with nextToken := s.nextToken + 1 }
    let pentry : PendingEntry :=
      { clientId := c.id, inviteToken := tok.orNull, ip := c.ip, createdAt := now }
    let s := { s with pendingSessionTokens := insertTok s.pendingSessionTokens ptok pentry }
    let c := { c with pendingSessionToken := some ptok }
    let s := setClient s c.id (fun cl => { cl with pendingSessionToken := some ptok })
    let outs1 := [Out.sessionTokenMsg c.id (some ptok)]
    let s := { s with queue := s.queue ++ [c.id] }
    let c := { c with cstate := .queued, joinedAt := some now }
    let s := setClient s c.id (fun cl => { cl with cstate := .queued, joinedAt := some now })
    let r :=
      if s.activeSession.isNone && (s.queue.head? = some c.id : Bool) then
        startSession s.queue.length s c sps now
      else
        (s, [queuePositionOut s c.id])
    (r.1, outs1 ++ r.2 ++ broadcastQueueUpdate r.1)

/-- The continuation of `joinQueue` after the awaited invite-store read
resumes: run the validation decision against the then-current coordinator
state, reject with `invite_invalid`, or record the invite on the client and
continue with `joinRest`.  The expired write-back of `validateInvite` is an
external-store effect. -/
def joinPhase2 (s : CoordState) (c : Client) (tokenStr : String)
    (recd : Option Invite) (curTtl : Int) (sps : List SpawnRes) (now : Int) :
    CoordState × List Out :=
  let vres := (validateInvite s.activeSession s.pendingSessionTokens tokenStr
    (some c.ip) recd curTtl now).1
  if !vres.valid then (s, [Out.inviteInvalid c.id vres.reason])
  else
    let c := { c with inviteToken := .str tokenStr }
    let s := setClient s c.id (fun cl => { cl with inviteToken := .str tokenStr })
    joinRest s c (.str tokenStr) sps now

/-- The atomic `joinQueue` handler: phase 1, then (when it suspends on the
invite read) phase 2 against the unchanged state, as happens when no other
task runs during the await. -/
def joinQueue (s : CoordState) (cid : Nat) (tok : JVal) (recd : Option Invite)
    (curTtl : Int) (sps : List SpawnRes) (now : Int) : CoordState × List Out :=
  match findClient s cid with
  | none => (s, [])
  | some c =>
    match joinPhase1 s c tok with
    | .early s' outs => (s', outs)
    | .suspendedValidate tokenStr => joinPhase2 s c tokenStr recd curTtl sps now
    | .continueNoInvite => joinRest s c tok sps now

/-- `leaveQueue(ws, client)` from `services/queue.js`. -/
def leaveQueueStep (s : CoordState) (cid : Nat) : CoordState × List Out :=
  match findClient s cid with
  | none => (s, [])
  | some _ =>
    if cid ∈ s.queue then
      let s := { s with queue := s.queue.erase cid }
      let s := setClient s cid (fun cl => { cl with cstate := .connected })
      (s, [Out.leftQueue cid] ++ broadcastQueueUpdate s)
    else (s, [])

/-- The `wss.on('connection', ...)` handler of `handlers/websocket.js`:
register a fresh client record and send the initial status frame.  The
client id is a fresh `uuidv4`; a collision with an existing connection's id
cannot occur and is modelled as a no-op. -/
def connectStep (s : CoordState) (cid : Nat) (ip : Nat) : CoordState × List Out :=
  if s.clients.any (fun c => c.id = cid) then (s, [])
  else
    let c : Client :=
      { id := cid, cstate := .connected, joinedAt := none, ip := ip,
        inviteToken := .null, pendingSessionToken := none, sessionToken := none }
    let s := { s with clients := s.clients ++ [c] }
    (s, [Out.statusMsg cid s.queue.length s.activeSession.isSome])

/-- Coordinator events: client protocol frames, connection lifecycle, and the
timer/subprocess callbacks.  `join` carries the awaited invite-store read
(`recd`, `curTtl`), and events that can start sessions carry the spawn
outcomes `sps` and the wall-clock `now`.  `sessionEnd` covers the session
timeout timer, subprocess exit, user end and shutdown paths, all of which
funnel into `endSession(reason)`. -/
inductive Event where
  | connect (cid : Nat) (ip : Nat)
  | join (cid : Nat) (tok : JVal) (recd : Option Invite) (curTtl : Int)
      (sps : List SpawnRes) (now : Int)
  | leave (cid : Nat)
  | disconnect (cid : Nat) (now : Int)
  | sessionEnd (reason : String) (sps : List SpawnRes) (now : Int)
  | graceFire (sps : List SpawnRes) (now : Int)
  | promote (sps : List SpawnRes) (now : Int)
  | spawnErrorFire (sps : List SpawnRes) (now : Int)
deriving DecidableEq, Repr

/-- One atomic coordinator step. -/
def step (s : CoordState) (e : Event) : CoordState × List Out :=
  match e with
  | .connect cid ip => connectStep s cid ip
  | .join cid tok recd curTtl sps now => joinQueue s cid tok recd curTtl sps now
  | .leave cid => leaveQueueStep s cid
  | .disconnect cid now => handleDisconnect s cid now
  | .sessionEnd reason sps now => endSession s reason sps now
  | .graceFire sps now => graceFireStep s sps now
  | .promote sps now => processQueue s sps now
  | .spawnErrorFire sps now => spawnErrorFireStep s sps now

/-- The state component of a step. -/
def stepSt (s : CoordState) (e : Event) : CoordState := (step s e).1

/-- The initial coordinator state (`services/state.js` module load). -/
def initState : CoordState :=
  { clients := [], queue := [], activeSession := none, sessionTokens := [],
    pendingSessionTokens := [], reconnectionInProgress := false,
    graceTimerArmed := false, spawnErrorPending := none,
    nextToken := 0, nextSessionId := 0 }

/-- The state after a sequence of events from startup. -/
def run (es : List Event) : CoordState := es.foldl stepSt initState

/-- A state the coordinator can reach from startup. -/
def Reachable (s : CoordState) : Prop := ∃ es, run es = s

/-- The clients freshly promoted into the active slot during a step: the
recipients of a `session_starting` frame with `reconnected` absent (the
reconnect path sends `reconnected: true`). -/
def freshStarts (outs : List Out) : List Nat :=
  outs.filterMap (fun o =>
    match o with
    | .sessionStarting cid _ _ false => some cid
    | _ => none)

/-- The clients whose promotion failed on a synchronous spawn throw during a
step: the recipients of the catch-block error frame. -/
def spawnFailures (outs : List Out) : List Nat :=
  outs.filterMap (fun o =>
    match o with
    | .errorMsg cid m => if m = msgFailedStartSession then some cid else none
    | _ => none)

/-- Number of active-session records held in the slot. -/
def sessionCount (s : CoordState) : Nat :=
  match s.activeSession with
  | some _ => 1
  | none => 0

/-- `x` is promoted into the active slot at step `i` of the trace `es`. -/
def ActivatedAt (es : List Event) (i : Nat) (x : Nat) : Prop :=
  i < es.length ∧
    x ∈ freshStarts (step (run (es.take i)) (es.getD i (.promote [] 0))).2

/-- The clients that take over an existing session during a step: recipients
of a `session_starting` frame with `reconnected: true`. -/
def reconnectStarts (outs : List Out) : List Nat :=
  outs.filterMap (fun o =>
    match o with
    | .sessionStarting cid _ _ true => some cid
    | _ => none)

/-- `x`'s session-start attempt fails on a synchronous spawn throw at step
`i` of the trace `es`. -/
def SpawnFailedAt (es : List Event) (i : Nat) (x : Nat) : Prop :=
  i < es.length ∧
    x ∈ spawnFailures (step (run (es.take i)) (es.getD i (.promote [] 0))).2

/-- The event is a `leave_queue` or a connection close of client `a` — the
two ways the spec's fairness clause allows a queued client to drop out. -/
def removesClient (e : Event) (a : Nat) : Bool :=
  match e with
  | .leave cid => cid = a
  | .disconnect cid _ => cid = a
  | _ => false

/-- The ids of the open connections. -/
def clientIds (s : CoordState) : List Nat := s.clients.map (fun c => c.id)

/-- The coordinator's structural invariant: the queue has no duplicate ids,
every queued id belongs to an open connection, and connection ids are
unique. -/
def Inv (s : CoordState) : Prop :=
  s.queue.Nodup ∧ (∀ cid ∈ s.queue, cid ∈ clientIds s) ∧ (clientIds s).Nodup

end QM

namespace Routes

/-!
Embedding of `routes/session.js` (`GET /api/session/validate` and
`GET /api/invite/validate`).  The session-validation route inspects only the
token maps and the active session's id, and its principal header slices the
uuid strings, so this embedding keeps the string representation:
`stok` is `state.sessionTokens` (token → sessionId) and `ptok` projects
`state.pendingSessionTokens` to the only field the route reads
(token → entry.clientId).
-/

/-- JS `Map.get`. -/
def lookupStr (m : List (String × String)) (k : String) : Option String :=
  (m.find? (fun p => p.1 = k)).map (fun p => p.2)

/-- JS `Map.delete`. -/
def eraseStr (m : List (String × String)) (k : String) : List (String × String) :=
  m.filter (fun p => !(p.1 = k))

/-- Response of the auth sub-request: `200 OK` with the `X-Grafana-User`
header, or a 401 with a body. -/
inductive AuthRes where
  | okRes (grafanaUser : String)
  | unauthorized (body : String)
deriving DecidableEq, Repr

def msgNoCookie : String := "No session cookie"
def msgNotActive : String := "Session not active"

/-- The fall-through of the route after the active-session check fails:
pending-token check, then stale-token cleanup and 401. -/
def sessionValidateRest (stok ptok : List (String × String)) (ck : String) :
    AuthRes × List (String × String) :=
  match lookupStr ptok ck with
  | some clientId => (.okRes ("demo-" ++ clientId.take 8), stok)
  | none =>
    if (lookupStr stok ck).isSome then (.unauthorized msgNotActive, eraseStr stok ck)
    else (.unauthorized msgNotActive, stok)

/-- `GET /api/session/validate` from `routes/session.js`: `cookie` is
`req.cookies.demo_session`, `activeSid` the current active session's id (if
any).  Returns the response and the session-token map after the request
(stale tokens are evicted). -/
def sessionValidate (stok ptok : List (String × String)) (activeSid : Option String)
    (cookie : Option String) : AuthRes × List (String × String) :=
  match cookie with
  | none => (.unauthorized msgNoCookie, stok)
  | some ck =>
    match lookupStr stok ck, activeSid with
    | some sid, some asid =>
      if sid ≠ "" ∧ sid = asid then (.okRes ("demo-" ++ sid.take 8), stok)
      else sessionValidateRest stok ptok ck
    | _, _ => sessionValidateRest stok ptok ck

/-- JS truthiness of an optional string (absent or empty is falsy). -/
def jsTruthyStrOpt : Option String → Bool
  | some s => !(s == "")
  | none => false

/-- `req.headers['x-invite-token'] || req.query.token`. -/
def headerOrQuery (h q : Option String) : Option String :=
  if jsTruthyStrOpt h then h else q

/-- HTTP response of `GET /api/invite/validate`. -/
structure InviteHttpRes where
  statusCode : Nat
  valid : Bool
  reason : Option String
deriving DecidableEq, Repr

/-- `GET /api/invite/validate` from `routes/session.js`: token from header or
query, the `missing` short-circuit, then `validateInvite` against the store
read (`recd`, `curTtl`) and the live coordinator state. -/
def inviteValidateRoute (header query : Option String) (clientIp : Option Nat)
    (active : Option QM.Session) (pendings : List (Nat × QM.PendingEntry))
    (recd : Option QM.Invite) (curTtl : Int) (now : Int) : InviteHttpRes :=
  let token := headerOrQuery header query
  if !(jsTruthyStrOpt token) then
    { statusCode := 401, valid := false, reason := some QM.reasonMissing }
  else
    let v := (QM.validateInvite active pendings (token.getD "") clientIp recd curTtl now).1
    if v.valid then { statusCode := 200, valid := true, reason := none }
    else { statusCode := 401, valid := false, reason := v.reason }

end Routes

namespace Spawn

/-!
Embedding of the credential handling of `services/session.js`
`startSession`: the environment-variable set written into the session
credential file (`createSessionEnvFile`) and the argument vector passed to
`spawn('ttyd', ...)`.
-/

/-- The configuration values (`config/index.js` and `process.env` reads) that
flow into the spawn: the three workload credentials and the non-secret
settings. -/
structure Config where
  SPLUNK_URL : String
  SPLUNK_USERNAME : String
  SPLUNK_PASSWORD : String
  SESSION_TIMEOUT_MINUTES : Nat
  CLAUDE_CODE_OAUTH_TOKEN : String
  ANTHROPIC_API_KEY : String
  TTYD_PORT : Nat
  ENABLE_AUTOPLAY : String
  AUTOPLAY_DEBUG : String
  AUTOPLAY_SHOW_TOOLS : String
  OTEL_ENDPOINT : String
deriving DecidableEq, Repr

/-- The variables written to the session credential file by
`createSessionEnvFile` (the conditional spreads include the Claude
credentials only when configured, i.e. non-empty). -/
def sessionEnvVars (cfg : Config) (sessionId : String) : List (String × String) :=
  [("SESSION_ID", sessionId),
   ("SPLUNK_URL", cfg.SPLUNK_URL),
   ("SPLUNK_USERNAME", cfg.SPLUNK_USERNAME),
   ("SPLUNK_PASSWORD", cfg.SPLUNK_PASSWORD),
   ("SESSION_TIMEOUT_MINUTES", toString cfg.SESSION_TIMEOUT_MINUTES)]
  ++ (if cfg.CLAUDE_CODE_OAUTH_TOKEN ≠ "" then
        [("CLAUDE_CODE_OAUTH_TOKEN", cfg.CLAUDE_CODE_OAUTH_TOKEN)] else [])
  ++ (if cfg.ANTHROPIC_API_KEY ≠ "" then
        [("ANTHROPIC_API_KEY", cfg.ANTHROPIC_API_KEY)] else [])

/-- The argument vector of `spawn('ttyd', [...])` in `startSession`:
the fixed ttyd/docker options, the security constraints, the `--env-file`
path of the credential file, and the non-secret `-e` variables. -/
def ttydSpawnArgs (cfg : Config) (envFileHostPath : String) : List String :=
  ["--port", toString cfg.TTYD_PORT,
   "--interface", "0.0.0.0",
   "--max-clients", "1",
   "--once",
   "--writable",
   "--client-option", "reconnect=0",
   "docker", "run", "--rm", "-it",
   "--memory", "512m",
   "--memory-swap", "512m",
   "--pids-limit", "100",
   "--cap-drop", "ALL",
   "--cap-add", "SETUID",
   "--cap-add", "SETGID",
   "--security-opt", "no-new-privileges:true",
   "--env-file", envFileHostPath,
   "-e", "TERM=xterm",
   "-e", "ENABLE_AUTOPLAY=" ++ cfg.ENABLE_AUTOPLAY,
   "-e", "AUTOPLAY_DEBUG=" ++ cfg.AUTOPLAY_DEBUG,
   "-e", "AUTOPLAY_SHOW_TOOLS=" ++ cfg.AUTOPLAY_SHOW_TOOLS,
   "-e", "OTEL_ENDPOINT=" ++ cfg.OTEL_ENDPOINT,
   "splunk-demo-container:latest"]

/-- A configuration with the three workload-credential values replaced. -/
def withCreds (cfg : Config) (pw oauth apiKey : String) : Config :=
  { cfg with SPLUNK_PASSWORD := pw, CLAUDE_CODE_OAUTH_TOKEN := oauth,
             ANTHROPIC_API_KEY := apiKey }

end Spawn

namespace QM

/-!  Derived predicates used in theorem statements, and concrete inputs used
by witnesses and counterexamples. -/

/-- The rejoin-eligibility test inside the used branch of `validateInvite`:
the active session, or some pending-token entry, carries this invite token
with the requester's source address. -/
def rejoinEligible (active : Option Session) (pend : List (Nat × PendingEntry))
    (tok : String) (ip : Option Nat) : Bool :=
  (match ip, active with
   | some i, some sess => jeq sess.inviteToken (.str tok) && decide (sess.ip = i)
   | _, _ => false) ||
  pend.any (fun p => jeq p.2.inviteToken (.str tok) && decide (ip = some p.2.ip))

/-- The reconnect-recognition condition of `joinQueue`: no reconnection in
progress, an active session awaiting reconnect whose stored `inviteToken` is
strictly (`===`) equal to the incoming one and whose `ip` equals the
joining connection's. -/
def reconnectMatch (s : CoordState) (c : Client) (tok : JVal) : Bool :=
  !s.reconnectionInProgress &&
    (match s.activeSession with
     | some sess =>
       sess.awaitingReconnect && jeq sess.inviteToken tok && decide (sess.ip = c.ip)
     | none => false)

/-- An ordinary active invite record. -/
def exInvite : Invite := { expiresAt := 10000000, maxUses := 1, useCount := 0, status := "active" }

/- C1 witness inputs: one connected client joining an empty coordinator. -/
def c1wState : CoordState := run [.connect 1 7]
def c1wEvent : Event := .join 1 .undef none 0 [.ok] 100

/- C2 inputs: client 10 holds the session, clients 11 and 12 are queued in
that order. -/
def c2BaseTrace : List Event :=
  [.connect 10 1, .join 10 .undef none 0 [.ok] 0,
   .connect 11 2, .join 11 .undef none 0 [.ok] 1,
   .connect 12 3, .join 12 .undef none 0 [.ok] 2]

/-- Counterexample trace: the session ends and the promotion of client 11
fails on a synchronous spawn throw, so the coordinator advances to client 12. -/
def c2CexTrace : List Event := c2BaseTrace ++ [.sessionEnd "timeout" [.errSync, .ok] 50]

/-- Witness trace: both promotions spawn successfully. -/
def c2WitTrace : List Event :=
  c2BaseTrace ++ [.sessionEnd "timeout" [.ok] 50, .sessionEnd "timeout" [.ok] 60]

/- C3 inputs: client 1 holds the session; client 5 sends two `join_queue`
frames with the same invite token, and both are suspended on the awaited
invite-store read before either resumes. -/
def c3State0 : CoordState := run [.connect 1 7, .join 1 .undef none 0 [.ok] 100, .connect 5 9]
def c3Client : Client :=
  { id := 5, cstate := .connected, joinedAt := none, ip := 9,
    inviteToken := .null, pendingSessionToken := none, sessionToken := none }
def c3State1 : CoordState := (joinPhase2 c3State0 c3Client "tokA" (some exInvite) 500000 [.ok] 200).1
def c3State2 : CoordState := (joinPhase2 c3State1 c3Client "tokA" (some exInvite) 500000 [.ok] 201).1

/- C4 inputs: client 1 started its session without an invite token
(`activeSession.inviteToken` is `null`) and disconnected; client 3 from the
same address sends a `join_queue` frame without an `inviteToken` field
(`undefined`). -/
def c4CexState : CoordState := run [.connect 1 7, .join 1 .undef none 0 [.ok] 100, .disconnect 1 150, .connect 3 7]
def c4CexEvent : Event := .join 3 .undef none 0 [.ok] 160

/-- C4 witness inputs: the same scenario with an explicit `null` field, which
is strictly equal to the stored `null`. -/
def c4wEvent : Event := .join 3 .null none 0 [.ok] 160

/- C5 witness input: a coordinator state with the reconnection lock held. -/
def c5wState : CoordState := { run [.connect 1 7] with reconnectionInProgress := true }

/-- The connection record of client 1 in `c5wState`. -/
def c5wClient : Client :=
  { id := 1, cstate := .connected, joinedAt := none, ip := 7,
    inviteToken := .null, pendingSessionToken := none, sessionToken := none }

/- C7 failing input: client 1's `ttyd` spawn fails asynchronously (e.g.
`ENOENT`), client 2 is waiting in the queue when the `error` event fires. -/
def c7Trace : List Event :=
  [.connect 1 7, .join 1 .undef none 0 [.errAsync] 100,
   .connect 2 8, .join 2 .undef none 0 [.ok] 200]
def c7FireEvent : Event := .spawnErrorFire [.ok] 300

/- C8 counterexample input: a syntactically valid, unexpired-by-status,
expired-by-time record whose remaining store TTL is 30 seconds. -/
def c8CexInvite : Invite := { expiresAt := 5, maxUses := 1, useCount := 0, status := "active" }

end QM

/-- A concrete configuration with all three workload credentials set. -/
def c6wConfig : Spawn.Config :=
  { SPLUNK_URL := "https://splunk:8089", SPLUNK_USERNAME := "admin",
    SPLUNK_PASSWORD := "DemoPass123!", SESSION_TIMEOUT_MINUTES := 60,
    CLAUDE_CODE_OAUTH_TOKEN := "oauth-token", ANTHROPIC_API_KEY := "api-key",
    TTYD_PORT := 7681, ENABLE_AUTOPLAY := "false", AUTOPLAY_DEBUG := "false",
    AUTOPLAY_SHOW_TOOLS := "false", OTEL_ENDPOINT := "" }

namespace QM

theorem findClient_id {s : CoordState} {cid : Nat} {c : Client}
    (h : findClient s cid = some c) : c.id = cid := by
  have h' := List.find?_some h
  simpa using h'

/-- A stale token is absent after `Map.delete`. -/
theorem lookupStr_eraseStr_self (m : List (String × String)) (k : String) :
    Routes.lookupStr (Routes.eraseStr m k) k = none := by
  have : List.find? (fun p => p.1 = k) (Routes.eraseStr m k) = none := by
    rw [List.find?_eq_none]
    intro x hx
    have hx' := (List.mem_filter.mp hx).2
    simpa using hx'
  simp [Routes.lookupStr, this]

end QM

/-- C10: `GET /invite/validate` with neither an `X-Invite-Token` header nor a
`token` query parameter returns 401 with `{valid: false, reason: 'missing',
message: 'Invite token required'}` without consulting the key-value store
(the response is the same for every store content), and `missing` lies
outside the `not_found/expired/used/revoked/invalid` set of invite-rejection
reasons. -/
theorem c10_missing_invite_token :
    (∀ (clientIp : Option Nat) (active : Option QM.Session)
       (pendings : List (Nat × QM.PendingEntry)) (recd : Option QM.Invite)
       (curTtl : Int) (now : Int),
      Routes.inviteValidateRoute none none clientIp active pendings recd curTtl now =
        { statusCode := 401, valid := false, reason := some QM.reasonMissing }) ∧
    QM.reasonMissing ∉ [QM.reasonNotFound, QM.reasonExpired, QM.reasonUsed,
      QM.reasonRevoked, QM.reasonInvalid] := by
  constructor
  · intro clientIp active pendings recd curTtl now
    rfl
  · decide

/-- C6: the workload credentials (Splunk password, Claude OAuth token, API
key) reach the terminal-sharing subprocess only through the credential file:
the argument vector passed to `spawn('ttyd', ...)` is independent of all
three credential values, while the credential-file variable set contains the
Splunk password always and each Claude credential whenever configured. -/
theorem c6_credentials_via_file_not_argv :
    (∀ (cfg : Spawn.Config) (path : String) (pw oauth key pw' oauth' key' : String),
      Spawn.ttydSpawnArgs (Spawn.withCreds cfg pw oauth key) path =
        Spawn.ttydSpawnArgs (Spawn.withCreds cfg pw' oauth' key') path) ∧
    (∀ (cfg : Spawn.Config) (sid : String),
      ("SPLUNK_PASSWORD", cfg.SPLUNK_PASSWORD) ∈ Spawn.sessionEnvVars cfg sid) ∧
    (∀ (cfg : Spawn.Config) (sid : String), cfg.CLAUDE_CODE_OAUTH_TOKEN ≠ "" →
      ("CLAUDE_CODE_OAUTH_TOKEN", cfg.CLAUDE_CODE_OAUTH_TOKEN) ∈ Spawn.sessionEnvVars cfg sid) ∧
    (∀ (cfg : Spawn.Config) (sid : String), cfg.ANTHROPIC_API_KEY ≠ "" →
      ("ANTHROPIC_API_KEY", cfg.ANTHROPIC_API_KEY) ∈ Spawn.sessionEnvVars cfg sid) := by
  refine ⟨fun _ _ _ _ _ _ _ _ => rfl, ?_, ?_, ?_⟩
  · intro cfg sid
    simp [Spawn.sessionEnvVars]
  · intro cfg sid h
    simp [Spawn.sessionEnvVars, h]
  · intro cfg sid h
    simp [Spawn.sessionEnvVars, h]

/-- Witness for C6 at a concrete configuration with both Claude credentials
set. -/
theorem c6_credentials_via_file_not_argv_witness :
    c6wConfig.CLAUDE_CODE_OAUTH_TOKEN ≠ "" ∧ c6wConfig.ANTHROPIC_API_KEY ≠ "" ∧
    ("CLAUDE_CODE_OAUTH_TOKEN", c6wConfig.CLAUDE_CODE_OAUTH_TOKEN) ∈
      Spawn.sessionEnvVars c6wConfig "sid-1" ∧
    ("ANTHROPIC_API_KEY", c6wConfig.ANTHROPIC_API_KEY) ∈
      Spawn.sessionEnvVars c6wConfig "sid-1" :=
  ⟨by decide, by decide,
   c6_credentials_via_file_not_argv.2.2.1 c6wConfig "sid-1" (by decide),
   c6_credentials_via_file_not_argv.2.2.2 c6wConfig "sid-1" (by decide)⟩

/-- C5: a `join_queue` frame arriving while the reconnection lock is held is
answered with an explicit error frame and mutates no coordinator state at
all: the returned state is exactly the input state (queue, both token maps
and the active-session slot included). -/
theorem c5_reconnect_lock_guard (s : QM.CoordState) (cid : Nat) (c : QM.Client)
    (tok : QM.JVal) (recd : Option QM.Invite) (curTtl : Int)
    (sps : List QM.SpawnRes) (now : Int)
    (hlock : s.reconnectionInProgress = true)
    (hc : QM.findClient s cid = some c) :
    QM.step s (.join cid tok recd curTtl sps now) =
      (s, [QM.Out.errorMsg cid QM.msgReconnectInProgress]) := by
  have hid : c.id = cid := QM.findClient_id hc
  simp [QM.step, QM.joinQueue, hc, QM.joinPhase1, hlock, hid]

/-- Witness for C5: a concrete state with the lock held and one connected
client whose join is rejected unchanged. -/
theorem c5_reconnect_lock_guard_witness :
    QM.c5wState.reconnectionInProgress = true ∧
    QM.findClient QM.c5wState 1 = some QM.c5wClient ∧
    QM.step QM.c5wState (.join 1 (.str "tokA") (some QM.exInvite) 100 [.ok] 5) =
      (QM.c5wState, [QM.Out.errorMsg 1 QM.msgReconnectInProgress]) :=
  ⟨by decide, by decide,
   c5_reconnect_lock_guard QM.c5wState 1 QM.c5wClient (.str "tokA")
     (some QM.exInvite) 100 [.ok] 5 (by decide) (by decide)⟩

/-- Counterexample for C8: for an active record that is past `expiresAt` and
whose remaining store TTL is 30 seconds, `validateInvite` rejects with
`expired` and writes the record back with TTL 30 — the existing TTL, which
is not "at least one day" (86400 s). -/
theorem c8_expired_ttl_counterexample :
    QM.validateInvite none [] "abcd" none (some QM.c8CexInvite) 30 10 =
      ({ valid := false, reason := some QM.reasonExpired },
       some { record := { QM.c8CexInvite with status := QM.statusExpired },
              ttlSeconds := 30 }) ∧
    ¬ (86400 ≤ (30 : Int)) := by
  constructor
  · decide
  · decide

/-- C8 (amended): `validateInvite` decides in a fixed order — a token failing
`[A-Za-z0-9_-]{4,64}` is rejected `invalid` with a result independent of the
store read (hence before any lookup); an absent record yields `not_found`;
then status `revoked` yields `revoked`; then status `used` or
`useCount ≥ maxUses` yields a valid rejoin result exactly when the active
session or a pending-token entry carries the same invite token and source
address, otherwise `used`; then `expiresAt < now` writes the record back
marked `expired` with the existing TTL when it is positive and one day
(86400 s) otherwise, rejecting with `expired`; otherwise the result is
valid.  In particular a revoked or used invite that is also past `expiresAt`
is reported `revoked`/`used`, not `expired`. -/
theorem c8_validate_invite_decision_order :
    ∀ (active : Option QM.Session) (pend : List (Nat × QM.PendingEntry))
      (tok : String) (ip : Option Nat) (recd : Option QM.Invite)
      (curTtl : Int) (now : Int),
      (QM.tokenSyntaxOk tok = false →
        QM.validateInvite active pend tok ip recd curTtl now =
          ({ valid := false, reason := some QM.reasonInvalid }, none)) ∧
      (QM.tokenSyntaxOk tok = true → recd = none →
        QM.validateInvite active pend tok ip recd curTtl now =
          ({ valid := false, reason := some QM.reasonNotFound }, none)) ∧
      (∀ inv, QM.tokenSyntaxOk tok = true → recd = some inv →
        inv.status = QM.statusRevoked →
        QM.validateInvite active pend tok ip recd curTtl now =
          ({ valid := false, reason := some QM.reasonRevoked }, none)) ∧
      (∀ inv, QM.tokenSyntaxOk tok = true → recd = some inv →
        inv.status ≠ QM.statusRevoked →
        (inv.status = QM.statusUsed ∨ inv.useCount ≥ inv.maxUses) →
        QM.validateInvite active pend tok ip recd curTtl now =
          (if QM.rejoinEligible active pend tok ip then
            ({ valid := true, rejoin := true, data := some inv }, none)
          else
            ({ valid := false, reason := some QM.reasonUsed }, none))) ∧
      (∀ inv, QM.tokenSyntaxOk tok = true → recd = some inv →
        inv.status ≠ QM.statusRevoked →
        ¬ (inv.status = QM.statusUsed ∨ inv.useCount ≥ inv.maxUses) →
        inv.expiresAt < now →
        QM.validateInvite active pend tok ip recd curTtl now =
          ({ valid := false, reason := some QM.reasonExpired },
           some { record := { inv with status := QM.statusExpired },
                  ttlSeconds := if curTtl > 0 then curTtl else 86400 })) ∧
      (∀ inv, QM.tokenSyntaxOk tok = true → recd = some inv →
        inv.status ≠ QM.statusRevoked →
        ¬ (inv.status = QM.statusUsed ∨ inv.useCount ≥ inv.maxUses) →
        ¬ (inv.expiresAt < now) →
        QM.validateInvite active pend tok ip recd curTtl now =
          ({ valid := true, data := some inv }, none)) := by
  intro active pend tok ip recd curTtl now
  refine ⟨?_, ?_, ?_, ?_, ?_, ?_⟩
  · intro h
    simp [QM.validateInvite, h]
  · intro h hr
    simp [QM.validateInvite, h, hr]
  · intro inv h hr hs
    simp [QM.validateInvite, h, hr, hs]
  · intro inv h hr hnrev hused
    subst hr
    have hcond : (decide (inv.status = QM.statusUsed) ||
        decide (inv.useCount ≥ inv.maxUses)) = true := by
      rcases hused with h1 | h2
      · simp [h1]
      · simp [h2]
    cases hA : (match ip, active with
        | some i, some sess =>
          QM.jeq sess.inviteToken (QM.JVal.str tok) && decide (sess.ip = i)
        | _, _ => false) <;>
      cases hB : pend.any
          (fun p => QM.jeq p.2.inviteToken (QM.JVal.str tok) &&
            decide (ip = some p.2.ip)) <;>
      simp [QM.validateInvite, QM.rejoinEligible, h, hnrev, hcond, hA, hB]
  · intro inv h hr hnrev hnused hexp
    subst hr
    push_neg at hnused
    have hcond : (decide (inv.status = QM.statusUsed) ||
        decide (inv.useCount ≥ inv.maxUses)) = false := by
      simp [hnused.1, hnused.2]
    simp [QM.validateInvite, h, hnrev, hcond, hexp]
  · intro inv h hr hnrev hnused hnexp
    subst hr
    push_neg at hnused
    have hcond : (decide (inv.status = QM.statusUsed) ||
        decide (inv.useCount ≥ inv.maxUses)) = false := by
      simp [hnused.1, hnused.2]
    simp [QM.validateInvite, h, hnrev, hcond, hnexp]

/-- Witness for C8 at a revoked record that is also past `expiresAt`: the
decision is `revoked`, not `expired`. -/
theorem c8_validate_invite_decision_order_witness :
    QM.tokenSyntaxOk "abcd" = true ∧
    QM.validateInvite none [] "abcd" none
        (some { expiresAt := 5, maxUses := 1, useCount := 0, status := "revoked" }) 30 10 =
      ({ valid := false, reason := some QM.reasonRevoked }, none) :=
  ⟨by decide,
   (c8_validate_invite_decision_order none [] "abcd" none
       (some { expiresAt := 5, maxUses := 1, useCount := 0, status := "revoked" }) 30 10).2.2.1
     { expiresAt := 5, maxUses := 1, useCount := 0, status := "revoked" }
     (by decide) rfl (by decide)⟩

/-- C9: `GET /session/validate` returns 200 iff the presented token is in the
session-token map and maps to the current active session's id (then with
principal `demo-<first 8 chars of sessionId>`), or is in the pending-token
map (then with principal `demo-<first 8 chars of clientId>`); in every other
case it returns 401, and a token that was present in the session-token map
but does not refer to the current active session is then evicted from that
map. -/
theorem c9_session_validate_law :
    ∀ (stok ptok : List (String × String)) (asid : Option String) (ck : String),
      ((∃ u, (Routes.sessionValidate stok ptok asid (some ck)).1 = .okRes u) ↔
        ((∃ sid, Routes.lookupStr stok ck = some sid ∧ sid ≠ "" ∧ asid = some sid) ∨
          (Routes.lookupStr ptok ck).isSome = true)) ∧
      (∀ sid, Routes.lookupStr stok ck = some sid → sid ≠ "" → asid = some sid →
        Routes.sessionValidate stok ptok asid (some ck) =
          (.okRes ("demo-" ++ sid.take 8), stok)) ∧
      ((¬ ∃ sid, Routes.lookupStr stok ck = some sid ∧ sid ≠ "" ∧ asid = some sid) →
        ∀ cid, Routes.lookupStr ptok ck = some cid →
          Routes.sessionValidate stok ptok asid (some ck) =
            (.okRes ("demo-" ++ cid.take 8), stok)) ∧
      ((¬ ∃ sid, Routes.lookupStr stok ck = some sid ∧ sid ≠ "" ∧ asid = some sid) →
        Routes.lookupStr ptok ck = none →
        (Routes.sessionValidate stok ptok asid (some ck)).1 =
            .unauthorized Routes.msgNotActive ∧
          Routes.lookupStr (Routes.sessionValidate stok ptok asid (some ck)).2 ck = none ∧
          ((Routes.lookupStr stok ck).isSome →
            (Routes.sessionValidate stok ptok asid (some ck)).2 =
              Routes.eraseStr stok ck)) := by
  intro stok ptok asid ck
  have hactive : ∀ sid, Routes.lookupStr stok ck = some sid → sid ≠ "" →
      asid = some sid →
      Routes.sessionValidate stok ptok asid (some ck) =
        (.okRes ("demo-" ++ sid.take 8), stok) := by
    intro sid hsid hne hasid
    simp [Routes.sessionValidate, hsid, hasid, hne]
  have hrest : (¬ ∃ sid, Routes.lookupStr stok ck = some sid ∧ sid ≠ "" ∧
      asid = some sid) →
      Routes.sessionValidate stok ptok asid (some ck) =
        Routes.sessionValidateRest stok ptok ck := by
    intro hnact
    rcases hs : Routes.lookupStr stok ck with _ | sid
    · rcases asid with _ | as <;> simp [Routes.sessionValidate, hs]
    · rcases ha : asid with _ | as
      · simp [Routes.sessionValidate, hs]
      · have hcond : ¬ (sid ≠ "" ∧ sid = as) := by
          rintro ⟨h1, h2⟩
          exact hnact ⟨sid, hs, h1, by rw [ha, h2]⟩
        simp [Routes.sessionValidate, hs, ha, if_neg hcond]
  have hpending : (¬ ∃ sid, Routes.lookupStr stok ck = some sid ∧ sid ≠ "" ∧
      asid = some sid) →
      ∀ cid, Routes.lookupStr ptok ck = some cid →
      Routes.sessionValidate stok ptok asid (some ck) =
        (.okRes ("demo-" ++ cid.take 8), stok) := by
    intro hnact cid hp
    rw [hrest hnact]
    simp [Routes.sessionValidateRest, hp]
  have hfail : (¬ ∃ sid, Routes.lookupStr stok ck = some sid ∧ sid ≠ "" ∧
      asid = some sid) →
      Routes.lookupStr ptok ck = none →
      (Routes.sessionValidate stok ptok asid (some ck)).1 =
          .unauthorized Routes.msgNotActive ∧
        Routes.lookupStr (Routes.sessionValidate stok ptok asid (some ck)).2 ck = none ∧
        ((Routes.lookupStr stok ck).isSome →
          (Routes.sessionValidate stok ptok asid (some ck)).2 =
            Routes.eraseStr stok ck) := by
    intro hnact hp
    rw [hrest hnact]
    rcases hs : Routes.lookupStr stok ck with _ | sid
    · simp [Routes.sessionValidateRest, hp, hs]
    · simp [Routes.sessionValidateRest, hp, hs, QM.lookupStr_eraseStr_self]
  refine ⟨?_, hactive, hpending, hfail⟩
  constructor
  · intro hok
    by_cases hA : ∃ sid, Routes.lookupStr stok ck = some sid ∧ sid ≠ "" ∧ asid = some sid
    · exact Or.inl hA
    · right
      rcases hp : Routes.lookupStr ptok ck with _ | cid
      · exfalso
        rcases hok with ⟨u, hu⟩
        rw [(hfail hA hp).1] at hu
        exact Routes.AuthRes.noConfusion hu
      · simp
  · rintro (⟨sid, hsid, hne, hasid⟩ | hB)
    · exact ⟨"demo-" ++ sid.take 8, by rw [hactive sid hsid hne hasid]⟩
    · by_cases hA : ∃ sid, Routes.lookupStr stok ck = some sid ∧ sid ≠ "" ∧ asid = some sid
      · rcases hA with ⟨sid, hsid, hne, hasid⟩
        exact ⟨"demo-" ++ sid.take 8, by rw [hactive sid hsid hne hasid]⟩
      · rcases hp : Routes.lookupStr ptok ck with _ | cid
        · rw [hp] at hB
          exact absurd hB (by simp)
        · exact ⟨"demo-" ++ cid.take 8, by rw [hpending hA cid hp]⟩

/-- Witness for C9: a token mapped to the current active session passes with
the `demo-` principal, applied at concrete maps. -/
theorem c9_session_validate_law_witness :
    Routes.lookupStr [("tokA", "sessionAAA")] "tokA" = some "sessionAAA" ∧
    Routes.sessionValidate [("tokA", "sessionAAA")] [] (some "sessionAAA") (some "tokA") =
      (.okRes ("demo-" ++ "sessionAAA".take 8), [("tokA", "sessionAAA")]) :=
  ⟨by decide,
   (c9_session_validate_law [("tokA", "sessionAAA")] [] (some "sessionAAA") "tokA").2.1
     "sessionAAA" (by decide) (by decide) rfl⟩

namespace QM

theorem freshStarts_append (xs ys : List Out) :
    freshStarts (xs ++ ys) = freshStarts xs ++ freshStarts ys := by
  simp [freshStarts]

theorem freshStarts_broadcast (s : CoordState) :
    freshStarts (broadcastQueueUpdate s) = [] := by
  rw [freshStarts, List.filterMap_eq_nil_iff]
  intro o ho
  rcases List.mem_filterMap.mp ho with ⟨c, _, hco⟩
  by_cases hq : c.cstate = CState.queued
  · rw [if_pos hq] at hco
    cases hco
    rfl
  · rw [if_neg hq] at hco
    cases hco

theorem processQueueAux_active (fuel : Nat) (s : CoordState) (sps : List SpawnRes)
    (now : Int) (h : s.activeSession.isSome) :
    processQueueAux fuel s sps now = (s, []) := by
  cases fuel <;> simp [processQueueAux, h]

theorem broadcast_no_start (s : CoordState) :
    ∀ a ∈ broadcastQueueUpdate s,
      (match a with
        | Out.sessionStarting cid _ _ false => some cid
        | _ => none) = none := by
  intro a ha
  rcases List.mem_filterMap.mp ha with ⟨c, _, hco⟩
  by_cases hq : c.cstate = CState.queued
  · rw [if_pos hq] at hco
    cases hco
    rfl
  · rw [if_neg hq] at hco
    cases hco

theorem freshStarts_joinRest_active (s : CoordState) (c : Client) (tok : JVal)
    (sps : List SpawnRes) (now : Int) (h : s.activeSession.isSome) :
    freshStarts (joinRest s c tok sps now).2 = [] := by
  rcases Option.isSome_iff_exists.mp h with ⟨sess, hs⟩
  simp only [joinRest]
  split
  · rfl
  · simp [hs, setClient, freshStarts_append, freshStarts, freshStarts_broadcast,
      queuePositionOut]
    exact broadcast_no_start _

/-- An early return of `joinPhase1` (lock rejection, reconnect, or
already-in-queue) never emits a fresh `session_starting`. -/
theorem joinPhase1_early_no_start (s : CoordState) (c : Client) (tok : JVal)
    (s' : CoordState) (outs : List Out)
    (hp : joinPhase1 s c tok = .early s' outs) : freshStarts outs = [] := by
  simp only [joinPhase1] at hp
  split at hp
  · cases hp
    rfl
  · split at hp
    · split at hp
      · cases hp
        rfl
      · split at hp
        · cases hp
          rfl
        · split at hp
          · cases hp
          · cases hp
    · split at hp
      · cases hp
        rfl
      · split at hp
        · cases hp
        · cases hp

theorem freshStarts_connect (s : CoordState) (cid ip : Nat) :
    freshStarts (connectStep s cid ip).2 = [] := by
  unfold connectStep
  split
  · rfl
  · rfl

theorem freshStarts_leave (s : CoordState) (cid : Nat) :
    freshStarts (leaveQueueStep s cid).2 = [] := by
  unfold leaveQueueStep
  cases findClient s cid with
  | none => rfl
  | some c =>
    simp only []
    split
    · rw [freshStarts_append, freshStarts_broadcast]
      rfl
    · rfl

theorem freshStarts_disconnect (s : CoordState) (cid : Nat) (now : Int) :
    freshStarts (handleDisconnect s cid now).2 = [] := by
  unfold handleDisconnect
  cases findClient s cid with
  | none => rfl
  | some c =>
    simp only []
    repeat' split
    all_goals first
      | rfl
      | (exact freshStarts_broadcast _)

theorem freshStarts_spawnError_active (s : CoordState) (sps : List SpawnRes)
    (now : Int) (h : s.activeSession.isSome) :
    freshStarts (spawnErrorFireStep s sps now).2 = [] := by
  simp only [spawnErrorFireStep, processQueue]
  cases s.spawnErrorPending with
  | none => rfl
  | some cid =>
    simp only []
    rw [processQueueAux_active]
    · rfl
    · simpa [setClient] using h

theorem freshStarts_join_active (s : CoordState) (cid : Nat) (tok : JVal)
    (recd : Option Invite) (curTtl : Int) (sps : List SpawnRes) (now : Int)
    (h : s.activeSession.isSome) :
    freshStarts (joinQueue s cid tok recd curTtl sps now).2 = [] := by
  unfold joinQueue
  cases hc : findClient s cid with
  | none => rfl
  | some c =>
    cases hp : joinPhase1 s c tok with
    | early s' outs =>
      simp only [hp]
      exact joinPhase1_early_no_start s c tok s' outs hp
    | suspendedValidate tokenStr =>
      simp only [hp, joinPhase2]
      split
      · rfl
      · apply freshStarts_joinRest_active
        simpa [setClient] using h
    | continueNoInvite =>
      simp only [hp]
      exact freshStarts_joinRest_active s c tok sps now h

end QM

/-- C1: at no instant does the coordinator hold more than one active-session
record (the slot is a single `Option`-valued cell, so every state carries at
most one), and a fresh session start — a `session_starting` frame without
the `reconnected` flag — only happens either in a step that began with the
slot empty (a join finding no active session) or inside a session-end step
(`endSession`/the grace timer), which clears the slot before the coordinator
promotes the queue head. -/
theorem c1_at_most_one_active_session :
    (∀ s : QM.CoordState, QM.sessionCount s ≤ 1) ∧
    (∀ (s : QM.CoordState) (e : QM.Event),
      QM.freshStarts (QM.step s e).2 ≠ [] →
      s.activeSession = none ∨
        (∃ r sps now, e = .sessionEnd r sps now) ∨
        (∃ sps now, e = .graceFire sps now)) := by
  constructor
  · intro s
    unfold QM.sessionCount
    split <;> simp
  · intro s e h
    rcases hact : s.activeSession with _ | sess
    · exact Or.inl rfl
    have hsome : s.activeSession.isSome := by rw [hact]; rfl
    cases e with
    | connect cid ip =>
      exact absurd (QM.freshStarts_connect s cid ip) h
    | join cid tok recd curTtl sps now =>
      exact absurd (QM.freshStarts_join_active s cid tok recd curTtl sps now hsome) h
    | leave cid =>
      exact absurd (QM.freshStarts_leave s cid) h
    | disconnect cid now =>
      exact absurd (QM.freshStarts_disconnect s cid now) h
    | sessionEnd r sps now =>
      exact Or.inr (Or.inl ⟨r, sps, now, rfl⟩)
    | graceFire sps now =>
      exact Or.inr (Or.inr ⟨sps, now, rfl⟩)
    | promote sps now =>
      exfalso
      apply h
      show QM.freshStarts (QM.processQueue s sps now).2 = []
      rw [QM.processQueue, QM.processQueueAux_active _ _ _ _ hsome]
      rfl
    | spawnErrorFire sps now =>
      exact absurd (QM.freshStarts_spawnError_active s sps now hsome) h

/-- Witness for C1: a join on an empty coordinator emits a fresh
`session_starting`, and the theorem yields that the slot was empty (the
other two disjuncts name different events). -/
theorem c1_at_most_one_active_session_witness :
    QM.freshStarts (QM.step QM.c1wState QM.c1wEvent).2 ≠ [] ∧
    (QM.c1wState.activeSession = none ∨
      (∃ r sps now, QM.c1wEvent = .sessionEnd r sps now) ∨
      (∃ sps now, QM.c1wEvent = .graceFire sps now)) :=
  ⟨by decide, c1_at_most_one_active_session.2 QM.c1wState QM.c1wEvent (by decide)⟩

/-- C7 at the failing input (code bug): client 1's `ttyd` spawn fails
asynchronously while client 2 waits in the queue.  When the `error` handler
fires, the affected client receives the error frame, is reverted to
`connected`, and the credential file is released — but the session record
created by the continuing start path still occupies the active slot, so the
handler's `processQueue()` call is a no-op and the queue is not advanced:
the slot is taken and client 2 is not promoted, contradicting the claim. -/
theorem c7_async_spawn_failure_leaves_slot_taken :
    (QM.run QM.c7Trace).spawnErrorPending = some 1 ∧
    (QM.run QM.c7Trace).queue = [2] ∧
    (QM.run QM.c7Trace).activeSession.isSome = true ∧
    (QM.step (QM.run QM.c7Trace) QM.c7FireEvent).2 =
      [QM.Out.errorMsg 1 QM.msgFailedStartTerminal, QM.Out.credFileReleased] ∧
    ((QM.findClient (QM.stepSt (QM.run QM.c7Trace) QM.c7FireEvent) 1).map
        (fun c => c.cstate)) = some .connected ∧
    (QM.stepSt (QM.run QM.c7Trace) QM.c7FireEvent).activeSession =
      (QM.run QM.c7Trace).activeSession ∧
    (QM.stepSt (QM.run QM.c7Trace) QM.c7FireEvent).queue = [2] := by
  refine ⟨by decide, by decide, by decide, by decide, by decide, by decide, by decide⟩

/-- Counterexample for C3: with an active session held by client 1, client 5
sends two `join_queue` frames carrying the same valid invite token.  Both
frames pass the code before the awaited invite-store read (in particular the
already-in-queue check) against the same state, and when the two
continuations resume, each inserts the id — the queue then holds client 5
twice. -/
theorem c3_interleaved_join_duplicate :
    QM.Reachable QM.c3State0 ∧
    QM.findClient QM.c3State0 5 = some QM.c3Client ∧
    QM.joinPhase1 QM.c3State0 QM.c3Client (.str "tokA") = .suspendedValidate "tokA" ∧
    QM.c3State2 = (QM.joinPhase2 (QM.joinPhase2 QM.c3State0 QM.c3Client "tokA"
      (some QM.exInvite) 500000 [.ok] 200).1 QM.c3Client "tokA"
      (some QM.exInvite) 500000 [.ok] 201).1 ∧
    QM.c3State2.queue = [5, 5] ∧
    QM.c3State2.queue.count 5 = 2 ∧
    ¬ QM.c3State2.queue.Nodup :=
  ⟨⟨[.connect 1 7, .join 1 .undef none 0 [.ok] 100, .connect 5 9], rfl⟩,
   by decide, by decide, rfl, by decide, by decide, by decide⟩

namespace QM

theorem reconnectStarts_append (xs ys : List Out) :
    reconnectStarts (xs ++ ys) = reconnectStarts xs ++ reconnectStarts ys := by
  simp [reconnectStarts]

theorem broadcast_no_reconnect (s : CoordState) :
    ∀ a ∈ broadcastQueueUpdate s,
      (match a with
        | Out.sessionStarting cid _ _ true => some cid
        | _ => none) = none := by
  intro a ha
  rcases List.mem_filterMap.mp ha with ⟨c, _, hco⟩
  by_cases hq : c.cstate = CState.queued
  · rw [if_pos hq] at hco
    cases hco
    rfl
  · rw [if_neg hq] at hco
    cases hco

theorem reconnectStarts_broadcast (s : CoordState) :
    reconnectStarts (broadcastQueueUpdate s) = [] := by
  rw [reconnectStarts, List.filterMap_eq_nil_iff]
  exact broadcast_no_reconnect s

theorem reconnectStarts_startSessionCore (s : CoordState) (c : Client)
    (sp : SpawnRes) (now : Int) :
    reconnectStarts (startSessionCore s c sp now).2.1 = [] := by
  unfold startSessionCore
  split <;> rfl

theorem reconnectStarts_processQueueAux (fuel : Nat) :
    ∀ (s : CoordState) (sps : List SpawnRes) (now : Int),
      reconnectStarts (processQueueAux fuel s sps now).2 = [] := by
  induction fuel with
  | zero => intro s sps now; rfl
  | succ n ih =>
    intro s sps now
    unfold processQueueAux
    split
    · rfl
    · split
      · rfl
      · split
        · simp only []
          split
          · rw [reconnectStarts_append, reconnectStarts_startSessionCore, ih]
            rfl
          · exact reconnectStarts_startSessionCore _ _ _ _
        · exact ih _ sps now

theorem reconnectStarts_startSession (fuel : Nat) (s : CoordState) (c : Client)
    (sps : List SpawnRes) (now : Int) :
    reconnectStarts (startSession fuel s c sps now).2 = [] := by
  unfold startSession
  simp only []
  split
  · rw [reconnectStarts_append, reconnectStarts_startSessionCore,
      reconnectStarts_processQueueAux]
    rfl
  · exact reconnectStarts_startSessionCore _ _ _ _

theorem reconnectStarts_joinRest (s : CoordState) (c : Client) (tok : JVal)
    (sps : List SpawnRes) (now : Int) :
    reconnectStarts (joinRest s c tok sps now).2 = [] := by
  unfold joinRest
  split
  · rfl
  · simp only []
    split
    · rw [reconnectStarts_append, reconnectStarts_append,
        reconnectStarts_startSession, reconnectStarts_broadcast]
      rfl
    · rw [reconnectStarts_append, reconnectStarts_append, reconnectStarts_broadcast]
      rfl

theorem reconnectStarts_joinPhase2 (s : CoordState) (c : Client)
    (tokenStr : String) (recd : Option Invite) (curTtl : Int)
    (sps : List SpawnRes) (now : Int) :
    reconnectStarts (joinPhase2 s c tokenStr recd curTtl sps now).2 = [] := by
  unfold joinPhase2
  simp only []
  split
  · rfl
  · exact reconnectStarts_joinRest _ _ _ sps now

/-- An early return of `joinPhase1` that is not a recognized reconnect emits
no `reconnected: true` frame. -/
theorem joinPhase1_early_no_reconnect (s : CoordState) (c : Client) (tok : JVal)
    (s' : CoordState) (outs : List Out)
    (hm : reconnectMatch s c tok = false)
    (hp : joinPhase1 s c tok = .early s' outs) : reconnectStarts outs = [] := by
  simp only [joinPhase1] at hp
  split at hp
  · cases hp
    rfl
  next hlock =>
    have hl : s.reconnectionInProgress = false := by
      cases hb : s.reconnectionInProgress
      · rfl
      · exact absurd hb hlock
    split at hp
    next sess hact =>
      split at hp
      next hcond =>
        exfalso
        rw [reconnectMatch, hl, hact] at hm
        simp only [Bool.not_false, Bool.true_and] at hm
        rw [hcond] at hm
        cases hm
      next hcond =>
        split at hp
        · cases hp
          rfl
        · split at hp <;> cases hp
    next hact =>
      split at hp
      · cases hp
        rfl
      · split at hp <;> cases hp

/-- A recognized reconnect: the full effect of the reconnect path. -/
theorem join_reconnect_behavior (s : CoordState) (cid : Nat) (c : Client)
    (tok : JVal) (recd : Option Invite) (curTtl : Int) (sps : List SpawnRes)
    (now : Int) (sess : Session)
    (hc : findClient s cid = some c)
    (hact : s.activeSession = some sess)
    (hm : reconnectMatch s c tok = true) :
    step s (.join cid tok recd curTtl sps now) =
      (setClient
        { s with graceTimerArmed := false,
                 activeSession := some { sess with clientId := cid, awaitingReconnect := false, disconnectedAt := none } }
        cid
        (fun cl => { cl with inviteToken := tok, cstate := .active, pendingSessionToken := sess.sessionToken }),
       [Out.sessionTokenMsg cid sess.sessionToken,
        Out.sessionStarting cid sess.sessionToken sess.expiresAt true]) := by
  have hid := findClient_id hc
  have hl : s.reconnectionInProgress = false := by
    cases hb : s.reconnectionInProgress
    · rfl
    · rw [reconnectMatch, hb] at hm
      simp at hm
  have hcond : (sess.awaitingReconnect && jeq sess.inviteToken tok &&
      decide (sess.ip = c.ip)) = true := by
    rw [reconnectMatch, hl, hact] at hm
    simpa using hm
  simp [step, joinQueue, hc, joinPhase1, hl, hact, hcond, hid]

theorem join_not_reconnect (s : CoordState) (cid : Nat) (c : Client)
    (tok : JVal) (recd : Option Invite) (curTtl : Int) (sps : List SpawnRes)
    (now : Int)
    (hc : findClient s cid = some c)
    (hm : reconnectMatch s c tok = false) :
    reconnectStarts (step s (.join cid tok recd curTtl sps now)).2 = [] := by
  simp only [step, joinQueue, hc]
  cases hp : joinPhase1 s c tok with
  | early s' outs =>
    simp only [hp]
    exact joinPhase1_early_no_reconnect s c tok s' outs hm hp
  | suspendedValidate tokenStr =>
    simp only [hp]
    exact reconnectStarts_joinPhase2 s c tokenStr recd curTtl sps now
  | continueNoInvite =>
    simp only [hp]
    exact reconnectStarts_joinRest s c tok sps now

end QM

namespace QM

theorem endedMetric_mem_endSession (s : CoordState) (reason : String)
    (sps : List SpawnRes) (now : Int) (sess : Session)
    (hact : s.activeSession = some sess) :
    Out.endedMetric reason ∈ (endSession s reason sps now).2 := by
  unfold endSession
  rw [hact]
  simp

end QM

/-- Counterexample for C4: a session started without an invite token stores
`inviteToken: null`, while a reconnect-attempt `join_queue` frame without an
`inviteToken` field carries `undefined`; strict equality fails, so the join
is not handled as a reconnect even though the session is awaiting reconnect
from the same source address — the client is queued instead (no frame with
`reconnected: true` is sent, the session keeps the old `clientId`, and the
joiner enters the queue). -/
theorem c4_reconnect_both_absent_counterexample :
    QM.c4CexState.activeSession =
      some { clientId := 1, sessionId := 0, sessionToken := some 0, startedAt := 100,
             expiresAt := 3600100, inviteToken := .null, ip := 7, queueWaitMs := 0,
             awaitingReconnect := true, disconnectedAt := some 150 } ∧
    QM.findClient QM.c4CexState 3 =
      some { id := 3, cstate := .connected, joinedAt := none, ip := 7,
             inviteToken := .null, pendingSessionToken := none, sessionToken := none } ∧
    QM.c4CexEvent = .join 3 .undef none 0 [.ok] 160 ∧
    QM.reconnectStarts (QM.step QM.c4CexState QM.c4CexEvent).2 = [] ∧
    (QM.stepSt QM.c4CexState QM.c4CexEvent).queue = [3] ∧
    (QM.stepSt QM.c4CexState QM.c4CexEvent).activeSession = QM.c4CexState.activeSession := by
  refine ⟨by decide, by decide, rfl, by decide, by decide, by decide⟩

/-- C4 (amended): a join is handled as a reconnect exactly when no
reconnection is in progress, an active session exists with
`awaitingReconnect` set, the join's `inviteToken` is strictly (`===`) equal
to the session's stored value — for a session started without an invite the
stored value is `null`, which an absent (`undefined`) field does not equal,
so only an explicit `null` matches — and the source addresses agree
(`reconnectMatch`).  A recognized reconnect cancels the grace timer and
continues the session with the same `sessionId`, `expiresAt` and
`sessionToken` (only `clientId`, `awaitingReconnect` and `disconnectedAt`
change); a join that is not recognized emits no `reconnected: true` frame;
and while the session is awaiting reconnect, the armed grace timer's firing
ends the session with reason `disconnected`. -/
theorem c4_reconnect_recognition_and_grace :
    (∀ (s : QM.CoordState) (cid : Nat) (c : QM.Client) (tok : QM.JVal)
       (recd : Option QM.Invite) (curTtl : Int) (sps : List QM.SpawnRes)
       (now : Int) (sess : QM.Session),
      QM.findClient s cid = some c →
      s.activeSession = some sess →
      QM.reconnectMatch s c tok = true →
      QM.step s (.join cid tok recd curTtl sps now) =
        (QM.setClient
          { s with graceTimerArmed := false,
                   activeSession := some { sess with clientId := cid, awaitingReconnect := false, disconnectedAt := none } }
          cid
          (fun cl => { cl with inviteToken := tok, cstate := .active, pendingSessionToken := sess.sessionToken }),
         [QM.Out.sessionTokenMsg cid sess.sessionToken,
          QM.Out.sessionStarting cid sess.sessionToken sess.expiresAt true])) ∧
    (∀ (s : QM.CoordState) (cid : Nat) (c : QM.Client) (tok : QM.JVal)
       (recd : Option QM.Invite) (curTtl : Int) (sps : List QM.SpawnRes)
       (now : Int),
      QM.findClient s cid = some c →
      QM.reconnectMatch s c tok = false →
      QM.reconnectStarts (QM.step s (.join cid tok recd curTtl sps now)).2 = []) ∧
    (∀ (s : QM.CoordState) (sps : List QM.SpawnRes) (now : Int) (sess : QM.Session),
      s.graceTimerArmed = true →
      s.activeSession = some sess →
      sess.awaitingReconnect = true →
      QM.Out.endedMetric QM.reasonDisconnected ∈ (QM.step s (.graceFire sps now)).2 ∧
      (QM.stepSt s (.graceFire sps now)).graceTimerArmed = false) := by
  refine ⟨?_, ?_, ?_⟩
  · intro s cid c tok recd curTtl sps now sess hc hact hm
    exact QM.join_reconnect_behavior s cid c tok recd curTtl sps now sess hc hact hm
  · intro s cid c tok recd curTtl sps now hc hm
    exact QM.join_not_reconnect s cid c tok recd curTtl sps now hc hm
  · intro s sps now sess harm hact hawait
    constructor
    · simp only [QM.step, QM.graceFireStep, harm, if_true]
      rw [hact]
      simp only [hawait, if_true]
      exact QM.endedMetric_mem_endSession s QM.reasonDisconnected sps now sess hact
    · simp only [QM.stepSt, QM.step, QM.graceFireStep, harm, if_true]

/-- Witness for C4: the scenario of the counterexample but with an explicit
`null` invite token, which is strictly equal to the stored `null`: the join
is recognized and the session continues with the same `sessionId`,
`expiresAt` and `sessionToken`. -/
theorem c4_reconnect_recognition_and_grace_witness :
    QM.reconnectMatch QM.c4CexState
      { id := 3, cstate := .connected, joinedAt := none, ip := 7,
        inviteToken := .null, pendingSessionToken := none, sessionToken := none }
      .null = true ∧
    (QM.stepSt QM.c4CexState QM.c4wEvent).activeSession =
      some { clientId := 3, sessionId := 0, sessionToken := some 0, startedAt := 100,
             expiresAt := 3600100, inviteToken := .null, ip := 7, queueWaitMs := 0,
             awaitingReconnect := false, disconnectedAt := none } ∧
    (QM.stepSt QM.c4CexState QM.c4wEvent).graceTimerArmed = false ∧
    (QM.step QM.c4CexState QM.c4wEvent).2 =
      [QM.Out.sessionTokenMsg 3 (some 0), QM.Out.sessionStarting 3 (some 0) 3600100 true] := by
  have h := c4_reconnect_recognition_and_grace.1 QM.c4CexState 3
    { id := 3, cstate := .connected, joinedAt := none, ip := 7,
      inviteToken := .null, pendingSessionToken := none, sessionToken := none }
    .null none 0 [.ok] 160
    { clientId := 1, sessionId := 0, sessionToken := some 0, startedAt := 100,
      expiresAt := 3600100, inviteToken := .null, ip := 7, queueWaitMs := 0,
      awaitingReconnect := true, disconnectedAt := some 150 }
    (by decide) (by decide) (by decide)
  refine ⟨by decide, ?_, ?_, ?_⟩
  · rw [QM.stepSt, QM.c4wEvent, h]
    decide
  · rw [QM.stepSt, QM.c4wEvent, h]
    decide
  · rw [QM.c4wEvent, h]

namespace QM

theorem map_id_setClient_aux (l : List Client) (cid : Nat) (f : Client → Client)
    (hf : ∀ c, (f c).id = c.id) :
    (l.map (fun c => if c.id = cid then f c else c)).map (fun c => c.id) =
      l.map (fun c => c.id) := by
  induction l with
  | nil => rfl
  | cons x xs ih =>
    simp only [List.map_cons, ih]
    congr 1
    split
    · exact hf x
    · rfl

theorem clientIds_setClient (s : CoordState) (cid : Nat) (f : Client → Client)
    (hf : ∀ c, (f c).id = c.id) :
    clientIds (setClient s cid f) = clientIds s := by
  unfold clientIds setClient
  exact map_id_setClient_aux s.clients cid f hf

theorem setClient_clients_map_id (s : CoordState) (cid : Nat) (f : Client → Client)
    (hf : ∀ c, (f c).id = c.id) :
    List.map (fun c => c.id) (setClient s cid f).clients =
      List.map (fun c => c.id) s.clients := by
  unfold setClient
  exact map_id_setClient_aux s.clients cid f hf

theorem nodup_append_singleton {q : List Nat} {x : Nat} (h : q.Nodup)
    (hx : x ∉ q) : (q ++ [x]).Nodup := by
  rw [List.nodup_append]
  refine ⟨h, List.nodup_singleton x, ?_⟩
  intro a ha hax
  rw [List.mem_singleton] at hax
  exact hx (hax ▸ ha)

theorem startSessionCore_queue (s : CoordState) (c : Client) (sp : SpawnRes)
    (now : Int) : (startSessionCore s c sp now).1.queue = s.queue.erase c.id := by
  unfold startSessionCore
  cases sp <;> cases c.joinedAt <;> cases c.pendingSessionToken <;> simp [setClient]

theorem startSessionCore_clientIds (s : CoordState) (c : Client) (sp : SpawnRes)
    (now : Int) : clientIds (startSessionCore s c sp now).1 = clientIds s := by
  unfold startSessionCore
  cases sp <;> cases c.joinedAt <;> cases c.pendingSessionToken <;>
    simp [clientIds, setClient_clients_map_id]

theorem inv_startSessionCore (s : CoordState) (c : Client) (sp : SpawnRes)
    (now : Int) (hinv : Inv s) : Inv (startSessionCore s c sp now).1 := by
  obtain ⟨hqnd, hqcl, hcnd⟩ := hinv
  refine ⟨?_, ?_, ?_⟩
  · rw [startSessionCore_queue]
    exact hqnd.erase _
  · intro cid hcid
    rw [startSessionCore_queue] at hcid
    rw [startSessionCore_clientIds]
    exact hqcl cid (List.mem_of_mem_erase hcid)
  · rw [startSessionCore_clientIds]
    exact hcnd


theorem processQueueAux_queue (fuel : Nat) :
    ∀ (s : CoordState) (sps : List SpawnRes) (now : Int),
      ∃ n, (processQueueAux fuel s sps now).1.queue = s.queue.drop n := by
  induction fuel with
  | zero =>
    intro s sps now
    exact ⟨0, rfl⟩
  | succ m ih =>
    intro s sps now
    unfold processQueueAux
    split
    · exact ⟨0, rfl⟩
    · split
      · exact ⟨0, by simp_all⟩
      next nextId rest hq =>
        split
        next c hc =>
          have hcid : c.id = nextId := findClient_id hc
          simp only []
          split
          · obtain ⟨n, hn⟩ := ih (startSessionCore s c (sps.headD .ok) now).1 sps.tail now
            refine ⟨n + 1, ?_⟩
            rw [hn, startSessionCore_queue, hcid, hq, List.erase_cons_head,
              List.drop_succ_cons]
          · refine ⟨1, ?_⟩
            rw [startSessionCore_queue, hcid, hq, List.erase_cons_head,
              List.drop_succ_cons, List.drop_zero]
        next hc =>
          obtain ⟨n, hn⟩ := ih { s with queue := rest } sps now
          refine ⟨n + 1, ?_⟩
          rw [hn]
          simp [hq, List.drop_succ_cons]

theorem processQueueAux_clientIds (fuel : Nat) :
    ∀ (s : CoordState) (sps : List SpawnRes) (now : Int),
      clientIds (processQueueAux fuel s sps now).1 = clientIds s := by
  induction fuel with
  | zero =>
    intro s sps now
    rfl
  | succ m ih =>
    intro s sps now
    unfold processQueueAux
    split
    · rfl
    · split
      · rfl
      next nextId rest hq =>
        split
        next c hc =>
          simp only []
          split
          · rw [ih, startSessionCore_clientIds]
          · rw [startSessionCore_clientIds]
        next hc =>
          rw [ih]
          rfl

theorem inv_processQueueAux (fuel : Nat) (s : CoordState) (sps : List SpawnRes)
    (now : Int) (hinv : Inv s) : Inv (processQueueAux fuel s sps now).1 := by
  obtain ⟨hqnd, hqcl, hcnd⟩ := hinv
  obtain ⟨n, hn⟩ := processQueueAux_queue fuel s sps now
  refine ⟨?_, ?_, ?_⟩
  · rw [hn]
    exact hqnd.sublist (List.drop_sublist n s.queue)
  · intro cid hcid
    rw [hn] at hcid
    rw [processQueueAux_clientIds]
    exact hqcl cid (List.mem_of_mem_drop hcid)
  · rw [processQueueAux_clientIds]
    exact hcnd

theorem startSession_clientIds (fuel : Nat) (s : CoordState) (c : Client)
    (sps : List SpawnRes) (now : Int) :
    clientIds (startSession fuel s c sps now).1 = clientIds s := by
  unfold startSession
  simp only []
  split
  · rw [processQueueAux_clientIds, startSessionCore_clientIds]
  · rw [startSessionCore_clientIds]

theorem inv_startSession (fuel : Nat) (s : CoordState) (c : Client)
    (sps : List SpawnRes) (now : Int) (hinv : Inv s) :
    Inv (startSession fuel s c sps now).1 := by
  unfold startSession
  simp only []
  split
  · exact inv_processQueueAux _ _ _ _ (inv_startSessionCore s c _ now hinv)
  · exact inv_startSessionCore s c _ now hinv


theorem inv_of_eq (s' s : CoordState) (hinv : Inv s) (hq : s'.queue = s.queue)
    (hc : clientIds s' = clientIds s) : Inv s' := by
  obtain ⟨hqnd, hqcl, hcnd⟩ := hinv
  refine ⟨?_, ?_, ?_⟩
  · rw [hq]; exact hqnd
  · intro cid hcid
    rw [hq] at hcid
    rw [hc]
    exact hqcl cid hcid
  · rw [hc]; exact hcnd

theorem inv_push (s' s : CoordState) (x : Nat) (hinv : Inv s) (hx1 : x ∉ s.queue)
    (hx2 : x ∈ clientIds s) (hq : s'.queue = s.queue ++ [x])
    (hc : clientIds s' = clientIds s) : Inv s' := by
  obtain ⟨hqnd, hqcl, hcnd⟩ := hinv
  refine ⟨?_, ?_, ?_⟩
  · rw [hq]
    exact nodup_append_singleton hqnd hx1
  · intro cid hcid
    rw [hq] at hcid
    rw [hc]
    rcases List.mem_append.mp hcid with h | h
    · exact hqcl cid h
    · rw [List.mem_singleton] at h
      exact h ▸ hx2
  · rw [hc]; exact hcnd

theorem mem_ids_filter (l : List Client) (cid x : Nat)
    (hx : x ∈ l.map (fun c => c.id)) (hne : ¬ x = cid) :
    x ∈ (l.filter (fun cl => !(cl.id = cid))).map (fun c => c.id) := by
  rcases List.mem_map.mp hx with ⟨c, hc, hcid⟩
  refine List.mem_map.mpr ⟨c, List.mem_filter.mpr ⟨hc, ?_⟩, hcid⟩
  rw [hcid]
  simpa using hne

theorem findClient_mem {s : CoordState} {cid : Nat} {c : Client}
    (h : findClient s cid = some c) : cid ∈ clientIds s := by
  have hm := List.mem_of_find?_eq_some h
  have hid := findClient_id h
  exact List.mem_map.mpr ⟨c, hm, hid⟩

theorem joinPhase1_early_inv (s : CoordState) (c : Client) (tok : JVal)
    (s' : CoordState) (outs : List Out) (hinv : Inv s)
    (hp : joinPhase1 s c tok = .early s' outs) : Inv s' := by
  simp only [joinPhase1] at hp
  split at hp
  · cases hp
    exact hinv
  · split at hp
    · split at hp
      · cases hp
        refine inv_of_eq _ s hinv ?_ ?_
        · simp [setClient]
        · simp [clientIds, setClient_clients_map_id]
      · split at hp
        · cases hp
          exact hinv
        · split at hp <;> cases hp
    · split at hp
      · cases hp
        exact hinv
      · split at hp <;> cases hp

theorem joinPhase1_suspended_not_mem (s : CoordState) (c : Client) (tok : JVal)
    (t : String) (hp : joinPhase1 s c tok = .suspendedValidate t) :
    c.id ∉ s.queue := by
  intro hmem
  simp only [joinPhase1, if_pos hmem] at hp
  split at hp
  · cases hp
  · split at hp
    · split at hp <;> cases hp
    · cases hp

theorem joinPhase1_continue_not_mem (s : CoordState) (c : Client) (tok : JVal)
    (hp : joinPhase1 s c tok = .continueNoInvite) :
    c.id ∉ s.queue := by
  intro hmem
  simp only [joinPhase1, if_pos hmem] at hp
  split at hp
  · cases hp
  · split at hp
    · split at hp <;> cases hp
    · cases hp

theorem inv_joinRest (s : CoordState) (c : Client) (tok : JVal)
    (sps : List SpawnRes) (now : Int) (hinv : Inv s) (hnotin : c.id ∉ s.queue)
    (hmem : c.id ∈ clientIds s) : Inv (joinRest s c tok sps now).1 := by
  unfold joinRest
  split
  · exact hinv
  · simp only []
    split
    · apply inv_startSession
      refine inv_push _ s c.id hinv hnotin hmem ?_ ?_
      · simp [setClient]
      · simp [clientIds, setClient_clients_map_id]
    · refine inv_push _ s c.id hinv hnotin hmem ?_ ?_
      · simp [setClient]
      · simp [clientIds, setClient_clients_map_id]

theorem inv_joinPhase2 (s : CoordState) (c : Client) (tokenStr : String)
    (recd : Option Invite) (curTtl : Int) (sps : List SpawnRes) (now : Int)
    (hinv : Inv s) (hnotin : c.id ∉ s.queue) (hmem : c.id ∈ clientIds s) :
    Inv (joinPhase2 s c tokenStr recd curTtl sps now).1 := by
  unfold joinPhase2
  simp only []
  split
  · exact hinv
  · apply inv_joinRest
    · refine inv_of_eq _ s hinv ?_ ?_
      · simp [setClient]
      · simp [clientIds, setClient_clients_map_id]
    · simpa [setClient] using hnotin
    · simpa [clientIds, setClient_clients_map_id] using hmem

theorem inv_joinQueue (s : CoordState) (cid : Nat) (tok : JVal)
    (recd : Option Invite) (curTtl : Int) (sps : List SpawnRes) (now : Int)
    (hinv : Inv s) : Inv (joinQueue s cid tok recd curTtl sps now).1 := by
  unfold joinQueue
  cases hc : findClient s cid with
  | none => exact hinv
  | some c =>
    have hcm : c.id ∈ clientIds s := by
      rw [findClient_id hc]
      exact findClient_mem hc
    cases hp : joinPhase1 s c tok with
    | early s' outs =>
      simp only [hp]
      exact joinPhase1_early_inv s c tok s' outs hinv hp
    | suspendedValidate t =>
      simp only [hp]
      exact inv_joinPhase2 s c t recd curTtl sps now hinv
        (joinPhase1_suspended_not_mem s c tok t hp) hcm
    | continueNoInvite =>
      simp only [hp]
      exact inv_joinRest s c tok sps now hinv
        (joinPhase1_continue_not_mem s c tok hp) hcm


theorem inv_erase (s' s : CoordState) (x : Nat) (hinv : Inv s)
    (hq : s'.queue = s.queue.erase x) (hc : clientIds s' = clientIds s) :
    Inv s' := by
  obtain ⟨hqnd, hqcl, hcnd⟩ := hinv
  refine ⟨?_, ?_, ?_⟩
  · rw [hq]
    exact hqnd.erase _
  · intro cid hcid
    rw [hq] at hcid
    rw [hc]
    exact hqcl cid (List.mem_of_mem_erase hcid)
  · rw [hc]
    exact hcnd

theorem inv_leaveQueueStep (s : CoordState) (cid : Nat) (hinv : Inv s) :
    Inv (leaveQueueStep s cid).1 := by
  unfold leaveQueueStep
  cases findClient s cid with
  | none => exact hinv
  | some c =>
    simp only []
    split
    · refine inv_erase _ s cid hinv ?_ ?_
      · simp [setClient]
      · simp [clientIds, setClient_clients_map_id]
    · exact hinv

theorem inv_connectStep (s : CoordState) (cid ip : Nat) (hinv : Inv s) :
    Inv (connectStep s cid ip).1 := by
  obtain ⟨hqnd, hqcl, hcnd⟩ := hinv
  unfold connectStep
  split
  · exact ⟨hqnd, hqcl, hcnd⟩
  next hany =>
    have hnot : cid ∉ clientIds s := by
      intro hmemids
      rcases List.mem_map.mp hmemids with ⟨c, hc, hcid⟩
      exact hany (List.any_eq_true.mpr ⟨c, hc, by simpa using hcid⟩)
    refine ⟨hqnd, ?_, ?_⟩
    · intro x hx
      have h1 := hqcl x hx
      simp only [clientIds, List.map_append]
      exact List.mem_append.mpr (Or.inl h1)
    · show (clientIds _).Nodup
      have heq : clientIds { s with clients := s.clients ++
          [{ id := cid, cstate := .connected, joinedAt := none, ip := ip,
             inviteToken := .null, pendingSessionToken := none,
             sessionToken := none }] } = clientIds s ++ [cid] := by
        simp [clientIds]
      rw [heq]
      exact nodup_append_singleton hcnd hnot

theorem inv_endSession (s : CoordState) (reason : String) (sps : List SpawnRes)
    (now : Int) (hinv : Inv s) : Inv (endSession s reason sps now).1 := by
  unfold endSession
  cases hact : s.activeSession with
  | none => exact hinv
  | some sess =>
    simp only [processQueue]
    apply inv_processQueueAux
    cases hst : sess.sessionToken <;>
      split <;>
      refine inv_of_eq _ s hinv (by simp [setClient]) ?_ <;>
      simp [clientIds, setClient_clients_map_id]

theorem inv_graceFireStep (s : CoordState) (sps : List SpawnRes) (now : Int)
    (hinv : Inv s) : Inv (graceFireStep s sps now).1 := by
  unfold graceFireStep
  split
  · simp only []
    cases hact : s.activeSession with
    | none => exact inv_of_eq _ s hinv rfl rfl
    | some sess =>
      simp only []
      split
      · exact inv_of_eq _ _ (inv_endSession s reasonDisconnected sps now hinv) rfl rfl
      · exact inv_of_eq _ s hinv rfl rfl
  · exact hinv

theorem inv_spawnErrorFireStep (s : CoordState) (sps : List SpawnRes) (now : Int)
    (hinv : Inv s) : Inv (spawnErrorFireStep s sps now).1 := by
  unfold spawnErrorFireStep
  cases s.spawnErrorPending with
  | none => exact hinv
  | some cid =>
    simp only [processQueue]
    apply inv_processQueueAux
    refine inv_of_eq _ s hinv ?_ ?_
    · simp [setClient]
    · simp [clientIds, setClient_clients_map_id]

theorem handleDisconnect_cases (s : CoordState) (cid : Nat) (now : Int) :
    handleDisconnect s cid now = (s, []) ∨
    ((handleDisconnect s cid now).1.clients =
        s.clients.filter (fun cl => !(cl.id = cid)) ∧
     (((handleDisconnect s cid now).1.queue = s.queue ∧ cid ∉ s.queue) ∨
      (handleDisconnect s cid now).1.queue = s.queue.erase cid)) := by
  unfold handleDisconnect
  cases hf : findClient s cid with
  | none => exact Or.inl rfl
  | some c =>
    right
    cases hact : s.activeSession <;> cases hpt : c.pendingSessionToken <;>
      simp only [] <;>
      repeat' split
    all_goals simp_all

theorem inv_handleDisconnect (s : CoordState) (cid : Nat) (now : Int)
    (hinv : Inv s) : Inv (handleDisconnect s cid now).1 := by
  obtain ⟨hqnd, hqcl, hcnd⟩ := hinv
  rcases handleDisconnect_cases s cid now with h | ⟨hcl, hq⟩
  · rw [h]
    exact ⟨hqnd, hqcl, hcnd⟩
  · have hcnd' : (clientIds (handleDisconnect s cid now).1).Nodup := by
      rw [clientIds, hcl]
      exact hcnd.sublist ((List.filter_sublist _).map _)
    have hmem : ∀ x, x ∈ s.queue → ¬ x = cid →
        x ∈ clientIds (handleDisconnect s cid now).1 := by
      intro x hx hne
      rw [clientIds, hcl]
      exact mem_ids_filter s.clients cid x (hqcl x hx) hne
    rcases hq with ⟨hq, hnm⟩ | hq
    · refine ⟨?_, ?_, hcnd'⟩
      · rw [hq]
        exact hqnd
      · intro x hx
        rw [hq] at hx
        refine hmem x hx ?_
        intro hxe
        exact hnm (hxe ▸ hx)
    · refine ⟨?_, ?_, hcnd'⟩
      · rw [hq]
        exact hqnd.erase _
      · intro x hx
        rw [hq] at hx
        have hx' := (hqnd.mem_erase_iff).mp hx
        exact hmem x hx'.2 hx'.1

theorem inv_step (s : CoordState) (e : Event) (hinv : Inv s) :
    Inv (stepSt s e) := by
  cases e with
  | connect cid ip => exact inv_connectStep s cid ip hinv
  | join cid tok recd curTtl sps now =>
    exact inv_joinQueue s cid tok recd curTtl sps now hinv
  | leave cid => exact inv_leaveQueueStep s cid hinv
  | disconnect cid now => exact inv_handleDisconnect s cid now hinv
  | sessionEnd reason sps now => exact inv_endSession s reason sps now hinv
  | graceFire sps now => exact inv_graceFireStep s sps now hinv
  | promote sps now => exact inv_processQueueAux _ s sps now hinv
  | spawnErrorFire sps now => exact inv_spawnErrorFireStep s sps now hinv

theorem inv_foldl (es : List Event) : ∀ s, Inv s → Inv (es.foldl stepSt s) := by
  induction es with
  | nil => intro s h; exact h
  | cons e es ih =>
    intro s h
    exact ih (stepSt s e) (inv_step s e h)

theorem inv_initState : Inv initState := by
  refine ⟨List.nodup_nil, ?_, List.nodup_nil⟩
  intro cid hcid
  cases hcid

theorem reachable_inv (s : CoordState) (h : Reachable s) : Inv s := by
  obtain ⟨es, rfl⟩ := h
  exact inv_foldl es initState inv_initState


theorem spawnFailures_append (xs ys : List Out) :
    spawnFailures (xs ++ ys) = spawnFailures xs ++ spawnFailures ys := by
  simp [spawnFailures]

theorem spawnFailures_broadcast (s : CoordState) :
    spawnFailures (broadcastQueueUpdate s) = [] := by
  rw [spawnFailures, List.filterMap_eq_nil_iff]
  intro o ho
  rcases List.mem_filterMap.mp ho with ⟨c, _, hco⟩
  by_cases hq : c.cstate = CState.queued
  · rw [if_pos hq] at hco
    cases hco
    rfl
  · rw [if_neg hq] at hco
    cases hco

theorem sublist_erase_of_not_mem (c : Nat) :
    ∀ (q l : List Nat), List.Sublist l q → c ∉ l → List.Sublist l (q.erase c) := by
  intro q
  induction q with
  | nil =>
    intro l h _
    simpa using h
  | cons x q ih =>
    intro l h hc
    rw [List.erase_cons]
    cases h with
    | cons _ h' =>
      split
      · exact h'
      · exact (ih l h' hc).cons x
    | cons₂ _ h' =>
      rename_i l'
      split
      next he =>
        have hxc : x = c := by simpa using he
        exact (hc (by rw [hxc]; exact List.mem_cons_self c l')).elim
      next he =>
        exact (ih l' h' (fun hm => hc (List.mem_cons_of_mem x hm))).cons₂ x

theorem sublist_tail_of_ne {a b x : Nat} {t : List Nat}
    (h : List.Sublist [a, b] (x :: t)) (hne : a ≠ x) : List.Sublist [a, b] t := by
  cases h with
  | cons _ h' => exact h'
  | cons₂ _ h' => exact absurd rfl hne

theorem sublist_snd_mem {a b x : Nat} {t : List Nat}
    (h : List.Sublist [a, b] (x :: t)) : b ∈ t := by
  cases h with
  | cons _ h' => exact h'.subset (by simp)
  | cons₂ _ h' => exact h'.subset (by simp)

theorem findClient_of_mem_ids {s : CoordState} {cid : Nat}
    (h : cid ∈ clientIds s) : ∃ c, findClient s cid = some c := by
  rcases List.mem_map.mp h with ⟨c, hc, hcid⟩
  have : (s.clients.find? (fun cl => cl.id = cid)).isSome := by
    rw [List.find?_isSome]
    exact ⟨c, hc, by simpa using hcid⟩
  rcases Option.isSome_iff_exists.mp this with ⟨c', hc'⟩
  exact ⟨c', hc'⟩

theorem startSessionCore_errSync_snd (s : CoordState) (c : Client) (now : Int) :
    (startSessionCore s c .errSync now).2 =
      ([Out.errorMsg c.id msgFailedStartSession, Out.credFileReleased], true) := rfl

theorem startSessionCore_noThrow_snd (s : CoordState) (c : Client)
    (sp : SpawnRes) (now : Int) (h : sp ≠ .errSync) :
    (startSessionCore s c sp now).2 =
      ([Out.sessionStarting c.id c.pendingSessionToken
          (now + SESSION_TIMEOUT_MINUTES * 60 * 1000) false], false) := by
  cases sp with
  | errSync => exact absurd rfl h
  | ok => rfl
  | errAsync => rfl


theorem processQueueAux_succ_live (m : Nat) (s : CoordState)
    (sps : List SpawnRes) (now : Int) (nextId : Nat) (rest : List Nat)
    (c : Client) (hact : s.activeSession.isSome = false)
    (hq : s.queue = nextId :: rest) (hfc : findClient s nextId = some c) :
    processQueueAux (m + 1) s sps now =
      (if (startSessionCore s c (sps.headD .ok) now).2.2 then
        ((processQueueAux m (startSessionCore s c (sps.headD .ok) now).1
            sps.tail now).1,
         (startSessionCore s c (sps.headD .ok) now).2.1 ++
           (processQueueAux m (startSessionCore s c (sps.headD .ok) now).1
             sps.tail now).2)
      else ((startSessionCore s c (sps.headD .ok) now).1,
            (startSessionCore s c (sps.headD .ok) now).2.1)) := by
  rw [processQueueAux, hact, hq]
  simp only [hfc, Bool.false_eq_true, if_false]

theorem processQueueAux_order (a b : Nat) (fuel : Nat) :
    ∀ (s : CoordState) (sps : List SpawnRes) (now : Int),
      Inv s → List.Sublist [a, b] s.queue →
      a ∉ spawnFailures (processQueueAux fuel s sps now).2 →
      b ∉ freshStarts (processQueueAux fuel s sps now).2 ∧
        (a ∉ freshStarts (processQueueAux fuel s sps now).2 →
          List.Sublist [a, b] (processQueueAux fuel s sps now).1.queue) := by
  induction fuel with
  | zero =>
    intro s sps now hinv hab hsf
    exact ⟨by simp [processQueueAux, freshStarts], fun _ => hab⟩
  | succ m ih =>
    intro s sps now hinv hab hsf
    by_cases hact : s.activeSession.isSome
    · rw [processQueueAux_active _ _ _ _ hact] at hsf ⊢
      exact ⟨by simp [freshStarts], fun _ => hab⟩
    · rw [Bool.not_eq_true] at hact
      cases hq : s.queue with
      | nil =>
        rw [hq] at hab
        exact absurd hab (by simp)
      | cons nextId rest =>
        have hmemN : nextId ∈ clientIds s :=
          hinv.2.1 nextId (by rw [hq]; exact List.mem_cons_self _ _)
        rcases findClient_of_mem_ids hmemN with ⟨c, hfc⟩
        have hcid : c.id = nextId := findClient_id hfc
        have heq := processQueueAux_succ_live m s sps now nextId rest c hact hq hfc
        have hnd : (nextId :: rest).Nodup := by rw [← hq]; exact hinv.1
        have hbr : b ∈ rest := sublist_snd_mem (hq ▸ hab)
        have hbn : b ≠ nextId := by
          intro hbe
          exact (List.nodup_cons.mp hnd).1 (hbe ▸ hbr)
        cases hsp : sps.headD .ok with
        | errSync =>
          rw [hsp] at heq
          have heq2 : processQueueAux (m + 1) s sps now =
              ((processQueueAux m (startSessionCore s c .errSync now).1
                  sps.tail now).1,
               [Out.errorMsg nextId msgFailedStartSession, Out.credFileReleased] ++
                 (processQueueAux m (startSessionCore s c .errSync now).1
                   sps.tail now).2) := by
            rw [heq]
            simp [startSessionCore_errSync_snd, hcid]
          rw [heq2] at hsf ⊢
          simp only [spawnFailures_append] at hsf
          have hane : a ≠ nextId := by
            intro hae
            apply hsf
            rw [List.mem_append]
            left
            simp [spawnFailures, hae]
          have hsf2 : a ∉ spawnFailures (processQueueAux m
              (startSessionCore s c .errSync now).1 sps.tail now).2 := by
            intro hmem
            exact hsf (List.mem_append.mpr (Or.inr hmem))
          have habr : List.Sublist [a, b]
              (startSessionCore s c .errSync now).1.queue := by
            rw [startSessionCore_queue, hcid, hq, List.erase_cons_head]
            exact sublist_tail_of_ne (hq ▸ hab) hane
          have hinv2 : Inv (startSessionCore s c .errSync now).1 :=
            inv_startSessionCore s c _ now hinv
          have hm := ih (startSessionCore s c .errSync now).1 sps.tail now hinv2 habr hsf2
          constructor
          · rw [freshStarts_append]
            intro hmem
            rcases List.mem_append.mp hmem with h | h
            · simp [freshStarts] at h
            · exact hm.1 h
          · intro ha
            rw [freshStarts_append] at ha
            exact hm.2 (fun hmem => ha (List.mem_append.mpr (Or.inr hmem)))
        | ok =>
          rw [hsp] at heq
          have heq2 : processQueueAux (m + 1) s sps now =
              ((startSessionCore s c .ok now).1,
               [Out.sessionStarting nextId c.pendingSessionToken
                 (now + SESSION_TIMEOUT_MINUTES * 60 * 1000) false]) := by
            rw [heq]
            simp [startSessionCore_noThrow_snd s c .ok now (by simp), hcid]
          rw [heq2] at hsf ⊢
          constructor
          · simp [freshStarts, hbn]
          · intro ha
            have hane : a ≠ nextId := by
              intro hae
              apply ha
              simp [freshStarts, hae]
            rw [startSessionCore_queue, hcid, hq, List.erase_cons_head]
            exact sublist_tail_of_ne (hq ▸ hab) hane
        | errAsync =>
          rw [hsp] at heq
          have heq2 : processQueueAux (m + 1) s sps now =
              ((startSessionCore s c .errAsync now).1,
               [Out.sessionStarting nextId c.pendingSessionToken
                 (now + SESSION_TIMEOUT_MINUTES * 60 * 1000) false]) := by
            rw [heq]
            simp [startSessionCore_noThrow_snd s c .errAsync now (by simp), hcid]
          rw [heq2] at hsf ⊢
          constructor
          · simp [freshStarts, hbn]
          · intro ha
            have hane : a ≠ nextId := by
              intro hae
              apply ha
              simp [freshStarts, hae]
            rw [startSessionCore_queue, hcid, hq, List.erase_cons_head]
            exact sublist_tail_of_ne (hq ▸ hab) hane


theorem order_of_spec (f : CoordState × List Out) (s : CoordState)
    (sps : List SpawnRes) (now : Int) (a b : Nat) (hinv : Inv s)
    (hab : List.Sublist [a, b] s.queue)
    (hspec : (f.2 = [] ∧ f.1.queue = s.queue) ∨
      ∃ (pre : List Out) (s2 : CoordState),
        f.2 = pre ++ (processQueue s2 sps now).2 ∧
        f.1 = (processQueue s2 sps now).1 ∧
        freshStarts pre = [] ∧ spawnFailures pre = [] ∧
        s2.queue = s.queue ∧ clientIds s2 = clientIds s)
    (hsf : a ∉ spawnFailures f.2) :
    b ∉ freshStarts f.2 ∧
      (a ∉ freshStarts f.2 → List.Sublist [a, b] f.1.queue) := by
  rcases hspec with ⟨h2, h1⟩ | ⟨pre, s2, h2, h1, hfp, hsp, hq2, hc2⟩
  · rw [h2]
    exact ⟨by simp [freshStarts], fun _ => by rw [h1]; exact hab⟩
  · have hinv2 : Inv s2 := inv_of_eq s2 s hinv hq2 hc2
    have hab2 : List.Sublist [a, b] s2.queue := by rw [hq2]; exact hab
    have hsf2 : a ∉ spawnFailures (processQueueAux s2.queue.length s2 sps now).2 := by
      intro hmem
      apply hsf
      rw [h2, spawnFailures_append, hsp]
      simpa using hmem
    have hmain := processQueueAux_order a b s2.queue.length s2 sps now hinv2 hab2 hsf2
    constructor
    · rw [h2, freshStarts_append, hfp]
      intro hmem
      exact hmain.1 (by simpa using hmem)
    · intro ha
      rw [h1]
      apply hmain.2
      intro hmem
      apply ha
      rw [h2, freshStarts_append, hfp]
      simpa using hmem

theorem endSession_spec (s : CoordState) (reason : String) (sps : List SpawnRes)
    (now : Int) :
    ((endSession s reason sps now).2 = [] ∧
      (endSession s reason sps now).1.queue = s.queue) ∨
    ∃ (pre : List Out) (s2 : CoordState),
      (endSession s reason sps now).2 = pre ++ (processQueue s2 sps now).2 ∧
      (endSession s reason sps now).1 = (processQueue s2 sps now).1 ∧
      freshStarts pre = [] ∧ spawnFailures pre = [] ∧
      s2.queue = s.queue ∧ clientIds s2 = clientIds s := by
  unfold endSession
  cases hact : s.activeSession with
  | none => exact Or.inl ⟨rfl, rfl⟩
  | some sess =>
    right
    simp only []
    cases hst : sess.sessionToken <;> split <;>
      refine ⟨_, _, rfl, rfl, by simp [freshStarts], by simp [spawnFailures],
        by simp [setClient], by simp [clientIds, setClient_clients_map_id]⟩

theorem endSession_order (s : CoordState) (reason : String)
    (sps : List SpawnRes) (now : Int) (a b : Nat) (hinv : Inv s)
    (hab : List.Sublist [a, b] s.queue)
    (hsf : a ∉ spawnFailures (endSession s reason sps now).2) :
    b ∉ freshStarts (endSession s reason sps now).2 ∧
      (a ∉ freshStarts (endSession s reason sps now).2 →
        List.Sublist [a, b] (endSession s reason sps now).1.queue) :=
  order_of_spec _ s sps now a b hinv hab (endSession_spec s reason sps now) hsf

theorem graceFireStep_spec (s : CoordState) (sps : List SpawnRes) (now : Int) :
    ((graceFireStep s sps now).2 = [] ∧
      (graceFireStep s sps now).1.queue = s.queue) ∨
    ((graceFireStep s sps now).2 = (endSession s reasonDisconnected sps now).2 ∧
      (graceFireStep s sps now).1.queue =
        (endSession s reasonDisconnected sps now).1.queue) := by
  unfold graceFireStep
  split
  · simp only []
    split
    · split
      · exact Or.inr ⟨rfl, rfl⟩
      · exact Or.inl ⟨rfl, rfl⟩
    · exact Or.inl ⟨rfl, rfl⟩
  · exact Or.inl ⟨rfl, rfl⟩

theorem graceFireStep_order (s : CoordState) (sps : List SpawnRes) (now : Int)
    (a b : Nat) (hinv : Inv s) (hab : List.Sublist [a, b] s.queue)
    (hsf : a ∉ spawnFailures (graceFireStep s sps now).2) :
    b ∉ freshStarts (graceFireStep s sps now).2 ∧
      (a ∉ freshStarts (graceFireStep s sps now).2 →
        List.Sublist [a, b] (graceFireStep s sps now).1.queue) := by
  rcases graceFireStep_spec s sps now with ⟨h2, h1⟩ | ⟨h2, h1⟩
  · rw [h2]
    exact ⟨by simp [freshStarts], fun _ => by rw [h1]; exact hab⟩
  · rw [h2] at hsf
    have hm := endSession_order s reasonDisconnected sps now a b hinv hab hsf
    rw [h2, h1]
    exact hm

theorem spawnErrorFireStep_spec (s : CoordState) (sps : List SpawnRes)
    (now : Int) :
    ((spawnErrorFireStep s sps now).2 = [] ∧
      (spawnErrorFireStep s sps now).1.queue = s.queue) ∨
    ∃ (pre : List Out) (s2 : CoordState),
      (spawnErrorFireStep s sps now).2 = pre ++ (processQueue s2 sps now).2 ∧
      (spawnErrorFireStep s sps now).1 = (processQueue s2 sps now).1 ∧
      freshStarts pre = [] ∧ spawnFailures pre = [] ∧
      s2.queue = s.queue ∧ clientIds s2 = clientIds s := by
  unfold spawnErrorFireStep
  cases hsp : s.spawnErrorPending with
  | none => exact Or.inl ⟨rfl, rfl⟩
  | some cid =>
    right
    simp only []
    refine ⟨_, _, rfl, rfl, by simp [freshStarts], ?_, by simp [setClient], ?_⟩
    · simp [spawnFailures, msgFailedStartTerminal, msgFailedStartSession]
    · simp [clientIds, setClient_clients_map_id]

theorem spawnErrorFireStep_order (s : CoordState) (sps : List SpawnRes)
    (now : Int) (a b : Nat) (hinv : Inv s)
    (hab : List.Sublist [a, b] s.queue)
    (hsf : a ∉ spawnFailures (spawnErrorFireStep s sps now).2) :
    b ∉ freshStarts (spawnErrorFireStep s sps now).2 ∧
      (a ∉ freshStarts (spawnErrorFireStep s sps now).2 →
        List.Sublist [a, b] (spawnErrorFireStep s sps now).1.queue) :=
  order_of_spec _ s sps now a b hinv hab (spawnErrorFireStep_spec s sps now) hsf

theorem connectStep_queue (s : CoordState) (cid ip : Nat) :
    (connectStep s cid ip).1.queue = s.queue := by
  unfold connectStep
  split
  · rfl
  · rfl

theorem leaveQueueStep_queue_cases (s : CoordState) (cid : Nat) :
    (leaveQueueStep s cid).1.queue = s.queue ∨
      (leaveQueueStep s cid).1.queue = s.queue.erase cid := by
  unfold leaveQueueStep
  cases findClient s cid with
  | none => exact Or.inl rfl
  | some c =>
    simp only []
    split
    · right
      simp [setClient]
    · exact Or.inl rfl


theorem joinPhase1_early_queue (s : CoordState) (c : Client) (tok : JVal)
    (s' : CoordState) (outs : List Out)
    (hp : joinPhase1 s c tok = .early s' outs) : s'.queue = s.queue := by
  simp only [joinPhase1] at hp
  split at hp
  · cases hp
    rfl
  · split at hp
    · split at hp
      · cases hp
        simp [setClient]
      · split at hp
        · cases hp
          rfl
        · split at hp <;> cases hp
    · split at hp
      · cases hp
        rfl
      · split at hp <;> cases hp

theorem joinRest_order (s : CoordState) (c : Client) (tok : JVal)
    (sps : List SpawnRes) (now : Int) (a b : Nat)
    (hab : List.Sublist [a, b] s.queue) (hnm : c.id ∉ s.queue) :
    b ∉ freshStarts (joinRest s c tok sps now).2 ∧
      (a ∉ freshStarts (joinRest s c tok sps now).2 →
        List.Sublist [a, b] (joinRest s c tok sps now).1.queue) := by
  unfold joinRest
  split
  · exact ⟨by simp [freshStarts], fun _ => hab⟩
  · simp only []
    obtain ⟨x, t, hq⟩ : ∃ x t, s.queue = x :: t := by
      cases hqq : s.queue with
      | nil =>
        rw [hqq] at hab
        exact absurd hab (by simp)
      | cons x t => exact ⟨x, t, rfl⟩
    have hxne : ¬ x = c.id := by
      intro h
      apply hnm
      rw [hq, ← h]
      exact List.mem_cons_self x t
    split
    next hcnd =>
      exfalso
      rw [Bool.and_eq_true] at hcnd
      have h3 : (s.queue ++ [c.id]).head? = some c.id :=
        of_decide_eq_true hcnd.2
      rw [hq] at h3
      simp [hxne] at h3
    next hcnd =>
      constructor
      · rw [freshStarts_append, freshStarts_append, freshStarts_broadcast]
        simp [freshStarts, queuePositionOut]
      · intro _
        exact hab.trans (List.sublist_append_left s.queue [c.id])

theorem joinQueue_order (s : CoordState) (cid : Nat) (tok : JVal)
    (recd : Option Invite) (curTtl : Int) (sps : List SpawnRes) (now : Int)
    (a b : Nat) (hab : List.Sublist [a, b] s.queue) :
    b ∉ freshStarts (joinQueue s cid tok recd curTtl sps now).2 ∧
      (a ∉ freshStarts (joinQueue s cid tok recd curTtl sps now).2 →
        List.Sublist [a, b] (joinQueue s cid tok recd curTtl sps now).1.queue) := by
  unfold joinQueue
  cases hfc : findClient s cid with
  | none => exact ⟨by simp [freshStarts], fun _ => hab⟩
  | some c =>
    simp only []
    cases hp : joinPhase1 s c tok with
    | early s' outs =>
      simp only []
      rw [joinPhase1_early_no_start s c tok s' outs hp]
      exact ⟨by simp, fun _ => by
        rw [joinPhase1_early_queue s c tok s' outs hp]
        exact hab⟩
    | suspendedValidate tokenStr =>
      simp only [joinPhase2]
      split
      · exact ⟨by simp [freshStarts], fun _ => hab⟩
      · have hnm := joinPhase1_suspended_not_mem s c tok tokenStr hp
        exact joinRest_order _ _ _ sps now a b
          (by simpa [setClient] using hab) (by simpa [setClient] using hnm)
    | continueNoInvite =>
      simp only []
      exact joinRest_order s c tok sps now a b hab
        (joinPhase1_continue_not_mem s c tok hp)

theorem step_order (s : CoordState) (e : Event) (a b : Nat) (hinv : Inv s)
    (hab : List.Sublist [a, b] s.queue)
    (hra : removesClient e a = false) (hrb : removesClient e b = false)
    (hsf : a ∉ spawnFailures (step s e).2) :
    b ∉ freshStarts (step s e).2 ∧
      (a ∉ freshStarts (step s e).2 →
        List.Sublist [a, b] (step s e).1.queue) := by
  cases e with
  | connect cid ip =>
    simp only [step]
    rw [freshStarts_connect]
    exact ⟨by simp, fun _ => by rw [connectStep_queue]; exact hab⟩
  | join cid tok recd curTtl sps now =>
    exact joinQueue_order s cid tok recd curTtl sps now a b hab
  | leave cid =>
    simp only [step]
    rw [freshStarts_leave]
    refine ⟨by simp, fun _ => ?_⟩
    simp only [removesClient, decide_eq_false_iff_not] at hra hrb
    rcases leaveQueueStep_queue_cases s cid with h | h
    · rw [h]
      exact hab
    · rw [h]
      refine sublist_erase_of_not_mem cid s.queue [a, b] hab ?_
      intro hmem
      rcases List.mem_cons.mp hmem with h1 | h1
      · exact hra h1
      · rw [List.mem_singleton] at h1
        exact hrb h1
  | disconnect cid now =>
    simp only [step]
    rw [freshStarts_disconnect]
    refine ⟨by simp, fun _ => ?_⟩
    simp only [removesClient, decide_eq_false_iff_not] at hra hrb
    rcases handleDisconnect_cases s cid now with h | ⟨_, hq⟩
    · rw [h]
      exact hab
    · rcases hq with ⟨hq, _⟩ | hq
      · rw [hq]
        exact hab
      · rw [hq]
        refine sublist_erase_of_not_mem cid s.queue [a, b] hab ?_
        intro hmem
        rcases List.mem_cons.mp hmem with h1 | h1
        · exact hra h1
        · rw [List.mem_singleton] at h1
          exact hrb h1
  | sessionEnd reason sps now =>
    exact endSession_order s reason sps now a b hinv hab hsf
  | graceFire sps now =>
    exact graceFireStep_order s sps now a b hinv hab hsf
  | promote sps now =>
    exact processQueueAux_order a b s.queue.length s sps now hinv hab hsf
  | spawnErrorFire sps now =>
    exact spawnErrorFireStep_order s sps now a b hinv hab hsf


theorem run_take_succ (es : List Event) (j : Nat) (hj : j < es.length) :
    run (es.take (j + 1)) = stepSt (run (es.take j)) (es.getD j (.promote [] 0)) := by
  have h1 : es.take (j + 1) = es.take j ++ [es.getD j (.promote [] 0)] := by
    rw [List.take_succ]
    congr 1
    simp [List.getD_eq_getElem?_getD, List.getElem?_eq_getElem hj]
  rw [run, h1, List.foldl_append]
  rfl

theorem fifo_aux (es : List Event) (a b : Nat) (d : Nat) :
    ∀ i : Nat,
      List.Sublist [a, b] (run (es.take i)).queue →
      (∀ j, i ≤ j → j ≤ i + d → removesClient (es.getD j (.promote [] 0)) a = false) →
      (∀ j, i ≤ j → j ≤ i + d → removesClient (es.getD j (.promote [] 0)) b = false) →
      (∀ j, i ≤ j → j ≤ i + d → ¬SpawnFailedAt es j a) →
      ActivatedAt es (i + d) b →
      ∃ j, i ≤ j ∧ j < i + d ∧ ActivatedAt es j a := by
  induction d with
  | zero =>
    intro i hab hra hrb hsf hb
    exfalso
    have hilen : i < es.length := by
      have := hb.1
      omega
    have hinv : Inv (run (es.take i)) := reachable_inv _ ⟨es.take i, rfl⟩
    have hsf' : a ∉ spawnFailures
        (step (run (es.take i)) (es.getD i (.promote [] 0))).2 := by
      intro hmem
      exact hsf i le_rfl (by omega) ⟨hilen, hmem⟩
    have hso := step_order (run (es.take i)) (es.getD i (.promote [] 0)) a b
      hinv hab (hra i le_rfl (by omega)) (hrb i le_rfl (by omega)) hsf'
    exact hso.1 hb.2
  | succ d ih =>
    intro i hab hra hrb hsf hb
    have hilen : i < es.length := by
      have := hb.1
      omega
    have hinv : Inv (run (es.take i)) := reachable_inv _ ⟨es.take i, rfl⟩
    have hsf' : a ∉ spawnFailures
        (step (run (es.take i)) (es.getD i (.promote [] 0))).2 := by
      intro hmem
      exact hsf i le_rfl (by omega) ⟨hilen, hmem⟩
    by_cases hact : a ∈ freshStarts
        (step (run (es.take i)) (es.getD i (.promote [] 0))).2
    · exact ⟨i, le_rfl, by omega, ⟨hilen, hact⟩⟩
    · have hso := step_order (run (es.take i)) (es.getD i (.promote [] 0)) a b
        hinv hab (hra i le_rfl (by omega)) (hrb i le_rfl (by omega)) hsf'
      have hab2 : List.Sublist [a, b] (run (es.take (i + 1))).queue := by
        rw [run_take_succ es i hilen]
        exact hso.2 hact
      have hb2 : ActivatedAt es (i + 1 + d) b := by
        have hidx : i + (d + 1) = i + 1 + d := by omega
        rw [hidx] at hb
        exact hb
      obtain ⟨j, hj1, hj2, hj3⟩ := ih (i + 1) hab2
        (fun j h1 h2 => hra j (by omega) (by omega))
        (fun j h1 h2 => hrb j (by omega) (by omega))
        (fun j h1 h2 => hsf j (by omega) (by omega)) hb2
      exact ⟨j, by omega, by omega, hj3⟩

end QM

/-- C3: queue uniqueness (amended).  In every state reachable by atomically
executed coordinator events — any interleaving of `join_queue` frames whose
awaited invite-store read is not itself interleaved with a second join of
the same client id, which covers all interleavings of joins from distinct
connections — no client id appears in the queue more than once.  The
remaining part of the claim, covering repeated `join_queue` frames from one
connection interleaved with the awaited invite-store read, is false: the
`already in queue` check runs before the await, so both frames pass it and
the id is inserted twice. -/
theorem c3_queue_uniqueness_serialized (s : QM.CoordState)
    (h : QM.Reachable s) : s.queue.Nodup :=
  (QM.reachable_inv s h).1

theorem c3_queue_uniqueness_serialized_witness :
    QM.Reachable (QM.run QM.c2BaseTrace) ∧
      (QM.run QM.c2BaseTrace).queue.Nodup :=
  ⟨⟨QM.c2BaseTrace, rfl⟩,
   c3_queue_uniqueness_serialized (QM.run QM.c2BaseTrace) ⟨QM.c2BaseTrace, rfl⟩⟩

/-- C2: FIFO fairness (amended).  If clients `a` and `b` sit in the queue
with `a` ahead of `b` at some point of a trace, and through step `k`
neither sends `leave_queue` nor disconnects AND no promotion of `a` fails
on a synchronous spawn throw, then `b` is promoted into the active slot at
step `k` only if `a` was promoted at some strictly earlier step; and the
promotion loop only ever discards a prefix of the queue (the remaining
queued clients are a suffix of the old queue, in their original order).
The extra spawn-failure proviso is a correction: on a synchronous spawn
throw the coordinator's catch block advances past `a` (its turn is
consumed), and `b` can be promoted although `a` never was — see
`c2_fifo_order_counterexample`. -/
theorem c2_fifo_order :
    (∀ (es : List QM.Event) (a b i k : Nat),
      List.Sublist [a, b] (QM.run (es.take i)).queue →
      (∀ j, i ≤ j → j ≤ k →
        QM.removesClient (es.getD j (.promote [] 0)) a = false ∧
        QM.removesClient (es.getD j (.promote [] 0)) b = false) →
      (∀ j, i ≤ j → j ≤ k → ¬QM.SpawnFailedAt es j a) →
      QM.ActivatedAt es k b →
      i ≤ k →
      ∃ j, i ≤ j ∧ j < k ∧ QM.ActivatedAt es j a) ∧
    (∀ (s : QM.CoordState) (sps : List QM.SpawnRes) (now : Int),
      ∃ n, (QM.processQueue s sps now).1.queue = s.queue.drop n) := by
  constructor
  · intro es a b i k hab hr hsf hb hik
    obtain ⟨d, rfl⟩ : ∃ d, k = i + d := ⟨k - i, by omega⟩
    exact QM.fifo_aux es a b d i hab
      (fun j h1 h2 => (hr j h1 h2).1)
      (fun j h1 h2 => (hr j h1 h2).2) hsf hb
  · intro s sps now
    exact QM.processQueueAux_queue s.queue.length s sps now

theorem c2_fifo_order_witness :
    ∃ j, 6 ≤ j ∧ j < 7 ∧ QM.ActivatedAt QM.c2WitTrace j 11 :=
  c2_fifo_order.1 QM.c2WitTrace 11 12 6 7
    (by
      have h : (QM.run (QM.c2WitTrace.take 6)).queue = [11, 12] := by decide
      rw [h])
    (fun j h1 h2 => by interval_cases j <;> exact ⟨rfl, rfl⟩)
    (fun j h1 h2 => by
      interval_cases j <;> exact fun hjf => absurd hjf.2 (by decide))
    ⟨by decide, by decide⟩
    (by decide)

/-- Counterexample to the unqualified FIFO claim: on `c2CexTrace` client 11
is ahead of client 12 in the queue after step 5, neither of them ever
leaves or disconnects, yet at step 6 (the session end whose promotion of 11
throws synchronously) client 12 is promoted while client 11 is never
promoted at any step of the trace. -/
theorem c2_fifo_order_counterexample :
    List.Sublist [11, 12] (QM.run (QM.c2CexTrace.take 6)).queue ∧
    (∀ j, j < QM.c2CexTrace.length →
      QM.removesClient (QM.c2CexTrace.getD j (.promote [] 0)) 11 = false ∧
      QM.removesClient (QM.c2CexTrace.getD j (.promote [] 0)) 12 = false) ∧
    QM.ActivatedAt QM.c2CexTrace 6 12 ∧
    (∀ j, ¬QM.ActivatedAt QM.c2CexTrace j 11) := by
  refine ⟨?_, ?_, ⟨by decide, by decide⟩, ?_⟩
  · have h : (QM.run (QM.c2CexTrace.take 6)).queue = [11, 12] := by decide
    rw [h]
  · intro j hj
    have hlen : QM.c2CexTrace.length = 7 := by decide
    rw [hlen] at hj
    interval_cases j <;> exact ⟨rfl, rfl⟩
  · intro j hja
    have hj : j < 7 := by
      have h1 := hja.1
      have hlen : QM.c2CexTrace.length = 7 := by decide
      rw [hlen] at h1
      exact h1
    interval_cases j <;> exact absurd hja.2 (by decide)
